import Mathlib

/-!
Verification of `cornice_swagger/swagger.py` (Eger37/cornice.ext.swagger)

Shallow embedding of the OpenAPI/Swagger document generator in
`src/cornice_swagger/swagger.py`.  Python dicts are modelled as ordered
association lists (insertion order preserved, as in CPython), schema
fragments as a JSON value type, and exceptions as an error type threaded
through `Except`.

The modules `cornice_swagger.converters` (TypeConversionDispatcher /
ParameterConversionDispatcher) and `cornice_swagger.util` (`merge_dicts`,
`body_schema_transformer`, `trim`) are imported by `swagger.py` but their
sources are not part of the repository snapshot; where their behaviour is
needed it is modelled from the specification and marked as such.

An important feature of the source file: it uses `six.string_types` at five
places (lines 191, 194, 961, 968, 976) but never imports `six`, so every
execution reaching one of those expressions raises
`NameError: name 'six' is not defined`.  The embedding represents this by
the error value `Err.nameError`.
-/

namespace CorniceSwagger

/-- JSON-like values: the shape of converted schema fragments, operation
objects and whole documents.  Objects are ordered association lists,
mirroring Python dict insertion order. -/
inductive Json where
  | str : String → Json
  | num : Int → Json
  | bool : Bool → Json
  | obj : List (String × Json) → Json
  | arr : List Json → Json
  deriving Repr, Inhabited

/-- Python exceptions raised by the code, by message / class. -/
inductive Err where
  /-- Embeds `NameError: name 'six' is not defined` (the source never imports `six`). -/
  | nameError
  /-- unguarded dict key access / `dict.pop` without default. -/
  | keyError
  | typeError
  | attributeError
  /-- Embeds `CorniceSwaggerException("Responses must have a description.")` -/
  | missingDescription
  /-- Embeds `CorniceSwaggerException("Swagger doesn't support multiple views for a same method. ...")` -/
  | duplicateMethod
  /-- Embeds `CorniceSwaggerException("Invalid path '{path}' definitions specifies conflicting parameters ...")` -/
  | conflictingContentType (path : String)
  /-- Embeds `CorniceSwaggerException('invalid OpenAPI specification version')` -/
  | invalidSpecVersion
  /-- Embeds `CorniceSwaggerException("tags should be a list or callable")` -/
  | tagsNotList
  /-- Embeds `CorniceSwaggerException("security should be a list or callable")` -/
  | securityNotList
  /-- out of recursion fuel (unreachable for the fuel values used here). -/
  | fuel
  deriving Repr, DecidableEq

/-- An ordered string-keyed map (a Python dict of JSON values). -/
abbrev Reg := List (String × Json)

/-- Embeds `d.get(k)`: first binding of `k`. -/
def getKey : Reg → String → Option Json
  | [], _ => none
  | (k', v) :: t, k => if k' = k then some v else getKey t k

/-- Embeds `d[k] = v`: replace in place if the key exists (keeping its position,
as CPython dicts do), otherwise append. -/
def setKey : Reg → String → Json → Reg
  | [], k, v => [(k, v)]
  | (k', v') :: t, k, v => if k' = k then (k, v) :: t else (k', v') :: setKey t k v

/-- Embeds `d.pop(k, None)`-style removal of every binding of `k`. -/
def removeKey : Reg → String → Reg
  | [], _ => []
  | (k', v') :: t, k => if k' = k then removeKey t k else (k', v') :: removeKey t k

def hasKey (l : Reg) (k : String) : Bool :=
  (getKey l k).isSome

/-- Field lookup on a JSON value (`dict.get`; `none` on non-objects). -/
def Json.get : Json → String → Option Json
  | .obj l, k => getKey l k
  | _, _ => none

/-- The fields of an object, `[]` for non-objects. -/
def Json.fields : Json → Reg
  | .obj l => l
  | _ => []

/-- Python truthiness of a JSON value. -/
def Json.truthy : Json → Bool
  | .str s => s ≠ ""
  | .num n => n ≠ 0
  | .bool b => b
  | .obj l => !l.isEmpty
  | .arr l => !l.isEmpty


/-! ## Structural string helpers

Lean's built-in `String.splitOn`, `toLower`, `replace` and friends are
compiled by well-founded recursion and do not reduce inside the kernel, so
the embedding uses its own structural character-list versions of the string
operations the source performs.  They implement the CPython semantics of
the corresponding `str` methods. -/

/-- Left-to-right, non-overlapping split on a nonempty separator
(`str.split(sep)`), over character lists; `fuel` is at least the input
length, which is always enough since every step consumes a character. -/
def splitChars (sep : List Char) : Nat → List Char → List Char → List (List Char)
  | 0, _, acc => [acc.reverse]
  | f + 1, l, acc =>
    match l with
    | [] => [acc.reverse]
    | c :: rest =>
      if sep.isPrefixOf (c :: rest) then
        acc.reverse :: splitChars sep f ((c :: rest).drop sep.length) []
      else
        splitChars sep f rest (c :: acc)

/-- Python `s.split(sep)` for a nonempty separator. -/
def strSplit (s sep : String) : List String :=
  if sep.toList.isEmpty then [s]
  else (splitChars sep.toList (s.toList.length + 1) s.toList []).map List.asString

/-- Python `s.lower()`. -/
def strToLower (s : String) : String :=
  (s.toList.map Char.toLower).asString

/-- The expression `kw[0].upper() + kw[1:]` of line 169. -/
def strUpperFirst (s : String) : String :=
  match s.toList with
  | [] => ""
  | c :: rest => (c.toUpper :: rest).asString

/-- Python `sep.join(parts)`. -/
def strJoin (sep : String) : List String → String
  | [] => ""
  | [x] => x
  | x :: y :: rest => x ++ sep ++ strJoin sep (y :: rest)

/-- Python `s.replace(pat, rep)` for a nonempty `pat`. -/
def strReplace (s pat rep : String) : String :=
  strJoin rep (strSplit s pat)

/-- Python `sub in s` for a nonempty `sub`. -/
def strContains (s sub : String) : Bool :=
  (strSplit s sub).length ≠ 1

/-- Python `s.startswith(c)` for a single character. -/
def strStartsWithChar (s : String) (c : Char) : Bool :=
  match s.toList with
  | [] => false
  | c' :: _ => c' == c

/-- Python `s.endswith(c)` for a single character. -/
def strEndsWithChar (s : String) (c : Char) : Bool :=
  match s.toList.getLast? with
  | some c' => c' == c
  | none => false

/-- Python `s[1:-1]`. -/
def strInner (s : String) : String :=
  ((s.toList.drop 1).dropLast).asString

/-- A colander schema node, as far as `swagger.py` consumes it.  The
colander library itself is an external collaborator; `converted` models
the output of the (externally defined) `TypeConversionDispatcher` for the
node, since `cornice_swagger.converters` is not part of the snapshot. -/
structure ColanderNode where
  /-- Embeds `node.name` -/
  name : String := ""
  /-- Embeds `type(node).__name__` -/
  className : String := "SchemaNode"
  /-- Embeds `node.title` (`""` = unset) -/
  title : String := ""
  /-- Embeds `node.description` (`""` = unset; colander's default) -/
  description : String := ""
  /-- whether the node is required (`missing` marker absent) -/
  required : Bool := true
  /-- Embeds `node.deprecated` (via `getattr(schema, 'deprecated', False)`) -/
  deprecated : Bool := false
  /-- Modelled from the spec: the JSON-Schema fragment the TypeConverter
  produces for this node (§4.1); the converter module is not under src. -/
  converted : Json := .obj []
  /-- Embeds `node.children` -/
  children : List ColanderNode := []
  /-- Embeds `getattr(node, 'examples', None)` -/
  examples : Option Json := none
  deriving Repr, Inhabited

/-! ## DefinitionHandler (swagger.py lines 88-206) -/

/-- Embeds `DefinitionHandler.json_pointer` -/
def def_json_pointer : String := "#/definitions/"

/-- Embeds `DefinitionHandler._get_schema_name(schema, base_name)` (lines 181-196).

If `base_name` is truthy it is returned.  Otherwise the source enters the
`for key in ['title', 'name']` loop whose first statement evaluates
`isinstance(name, six.string_types)`; since `six` is never imported in
`swagger.py`, this raises `NameError` unconditionally, so the documented
fallbacks (title, name, `type(schema).__name__`) are dead code.  The
`schema` argument is therefore irrelevant to the result. -/
def get_schema_name (base_name : Option String) : Except Err String :=
  match base_name with
  | some s => if s = "" then .error .nameError else .ok s
  | none => .error .nameError

mutual

/-- Size of a JSON value, used as recursion fuel for the definition
splitter: every recursive call of `_ref_recursive` descends into a strict
subterm, so `jsonSize` of the root plus one is always enough fuel. -/
def jsonSize : Json → Nat
  | .str _ => 1
  | .num _ => 1
  | .bool _ => 1
  | .obj l => 1 + jsonFieldsSize l
  | .arr l => 1 + jsonListSize l

def jsonFieldsSize : List (String × Json) → Nat
  | [] => 0
  | (_, v) :: t => 1 + jsonSize v + jsonFieldsSize t

def jsonListSize : List Json → Nat
  | [] => 0
  | v :: t => 1 + jsonSize v + jsonListSize t

end

/-- The `for kw in ['oneOf', 'allOf', 'anyOf', 'not']` scan used by
`_ref_recursive` and `_process_items` (lines 142-144, 166-168): the first
keyword whose value is a list. -/
def kwItems (schema : Json) : Option (String × List Json) :=
  match schema.get "oneOf" with
  | some (.arr l) => some ("oneOf", l)
  | _ =>
    match schema.get "allOf" with
    | some (.arr l) => some ("allOf", l)
    | _ =>
      match schema.get "anyOf" with
      | some (.arr l) => some ("anyOf", l)
      | _ =>
        match schema.get "not" with
        | some (.arr l) => some ("not", l)
        | _ => none

/-- Embeds `schema.get('title') + 'Item' or base_name + 'Item'` (line 152) when the
items have no title of their own: `None + 'Item'` raises TypeError when the
schema has no title; with a title the left operand is truthy and wins. -/
def arrayItemName (schema : Json) (_base_name : Option String) : Except Err String :=
  match schema.get "title" with
  | some (.str t) => .ok (t ++ "Item")
  | _ => .error .typeError

mutual

/-- Embeds `DefinitionHandler._ref_recursive(schema, depth, base_name)`
(lines 118-159).  `fuel` bounds the number of recursion steps; the entry
point passes three times the size of the schema plus three, which is always
sufficient since every call either descends into a strict subterm or
advances along a sibling list after at most three intermediate steps. -/
def ref_recursive (fuel : Nat) (schema : Json) (depth : Int)
    (base_name : Option String) (reg : Reg) : Except Err (Json × Reg) :=
  if depth = 0 then
    .ok (schema, reg)
  else
    match fuel with
    | 0 => .error .fuel
    | f + 1 =>
      -- for kw in ['oneOf', 'allOf', 'anyOf', 'not']: ... isinstance(items, list)
      match kwItems schema with
      | some (kw, items) =>
        let base_name :=
          match schema.get "title" with
          | some (.str t) => if t = "" then base_name else some t
          | _ => base_name
        process_items f schema kw items depth base_name reg
      | none =>
        -- schema['type'] (KeyError if absent)
        match schema.get "type" with
        | none => .error .keyError
        | some ty =>
          match ty with
          | .str "array" =>
            -- `isinstance(schema['items'], dict)`; KeyError if 'items' absent
            match schema.get "items" with
            | none => .error .keyError
            | some items =>
              match items with
              | .obj _ => do
                let (ref_pointer, reg) ← schema_object_to_pointer f schema depth base_name reg
                -- item_name = schema['items'].get('title') or schema.get('title') + 'Item' ...
                -- (`None + 'Item'` is a TypeError when the schema has no title)
                let item_name ← (match items.get "title" with
                  | some (.str t) => if t = "" then arrayItemName schema base_name else .ok t
                  | _ => arrayItemName schema base_name)
                let (items', reg) ← ref_recursive f items (depth - 1) (some item_name) reg
                -- `schema['items'] = ...` mutates the object registered by
                -- `_schema_object_to_pointer` above, so the registry entry
                -- reflects the new items value.
                let name ← get_schema_name base_name
                let reg := match getKey reg name with
                  | some cur => setKey reg name (.obj (setKey cur.fields "items" items'))
                  | none => reg
                .ok (ref_pointer, reg)
              | _ =>
                -- falls through to the `schema['type'] != 'object'` test
                .ok (schema, reg)
          | .str "object" => schema_object_to_pointer f schema depth base_name reg
          | _ => .ok (schema, reg)

/-- Embeds `DefinitionHandler._process_items(schema, list_type, item_list, depth, base_name)`
(lines 161-179). -/
def process_items (fuel : Nat) (schema : Json) (list_type : String)
    (item_list : List Json) (depth : Int) (base_name : Option String)
    (reg : Reg) : Except Err (Json × Reg) :=
  match fuel with
  | 0 => .error .fuel
  | f + 1 => do
    let (ref_pointer, reg) ← schema_object_to_pointer f schema depth base_name reg
    -- `base_name` is necessarily a truthy string here, since otherwise
    -- `_schema_object_to_pointer` → `_get_schema_name` raised NameError.
    let b := base_name.getD ""
    let (ref_list, reg) ← process_item_list f item_list depth b 0 reg
    let reg := setKey reg b (.obj [(list_type, .arr ref_list)])
    .ok (ref_pointer, reg)

/-- The `for i, item in enumerate(item_list)` loop of `_process_items`
(lines 164-177), with `i` the running index. -/
def process_item_list (fuel : Nat) (item_list : List Json) (depth : Int)
    (base_name : String) (i : Nat) (reg : Reg) :
    Except Err (List Json × Reg) :=
  match fuel with
  | 0 => .error .fuel
  | f + 1 =>
    match item_list with
    | [] => .ok ([], reg)
    | item :: rest => do
      let (ref, reg) ←
        match kwItems item with
        | some (kw, sub_items) =>
          -- sub_name = item.get('title') or (base_name + kw[0].upper() + kw[1:] + "Item" + str(i))
          let sub_name :=
            match item.get "title" with
            | some (.str t) => if t = "" then base_name ++ strUpperFirst kw ++ "Item" ++ toString i else t
            | _ => base_name ++ strUpperFirst kw ++ "Item" ++ toString i
          process_items f item kw sub_items (depth - 1) (some sub_name) reg
        | none =>
          let sub_name :=
            match item.get "title" with
            | some (.str t) => if t = "" then base_name ++ "Item" ++ toString i else t
            | _ => base_name ++ "Item" ++ toString i
          ref_recursive f item (depth - 1) (some sub_name) reg
      let (refs, reg) ← process_item_list f rest depth base_name (i + 1) reg
      .ok (ref :: refs, reg)

/-- Embeds `DefinitionHandler._schema_object_to_pointer(schema, depth, base_name)`
(lines 198-206): registers the schema under its resolved name after
recursing one level shallower into each of its `properties`, and returns
the JSON pointer. -/
def schema_object_to_pointer (fuel : Nat) (schema : Json) (depth : Int)
    (base_name : Option String) (reg : Reg) : Except Err (Json × Reg) :=
  match fuel with
  | 0 => .error .fuel
  | f + 1 => do
    let name ← get_schema_name base_name
    let pointer := def_json_pointer ++ name
    let (schema, reg) ←
      match schema.get "properties" with
      | some (.obj props) => do
        let (props', reg) ← ref_props f props (depth - 1) reg
        .ok (.obj (setKey schema.fields "properties" (.obj props')), reg)
      | _ => .ok (schema, reg)
    let reg := setKey reg name schema
    .ok (Json.obj [("$ref", .str pointer)], reg)

/-- The `for child_name, child in schema.get("properties", {}).items()`
loop of `_schema_object_to_pointer` (lines 202-203). -/
def ref_props (fuel : Nat) (props : Reg) (depth : Int) (reg : Reg) :
    Except Err (Reg × Reg) :=
  match fuel with
  | 0 => .error .fuel
  | f + 1 =>
    match props with
    | [] => .ok ([], reg)
    | (k, child) :: rest => do
      let (child', reg) ← ref_recursive f child depth none reg
      let (rest', reg) ← ref_props f rest depth reg
      .ok ((k, child') :: rest', reg)

end

/-- Embeds `DefinitionHandler.from_schema(schema_node, base_name)` (lines 103-116),
for a handler whose `ref` attribute is `dref` and whose registry is `reg`.
The type conversion `self.type_converter(schema_node)` is the node's
`converted` fragment (see `ColanderNode.converted`). -/
def defFromSchema (dref : Int) (node : ColanderNode) (base_name : Option String)
    (reg : Reg) : Except Err (Json × Reg) := do
  let name ← get_schema_name base_name
  ref_recursive (3 * jsonSize node.converted + 3) node.converted dref (some name) reg


/-! ## Registries and handler configuration -/

/-- The three side-effect registries.  Each is owned by the handler
instances created in `CorniceSwagger.__init__` (lines 99, 228, 337 create
them empty in the handlers' constructors; lines 563-573 instantiate the
handlers once per `CorniceSwagger` instance). -/
structure Registries where
  definition_registry : Reg := []
  parameter_registry : Reg := []
  response_registry : Reg := []
  deriving Repr, Inhabited

/-! ## ParameterHandler (swagger.py lines 209-319) -/

/-- Embeds `ParameterHandler.json_pointer` -/
def param_json_pointer : String := "#/parameters/"

/-- Modelled from the spec: `ParameterConversionDispatcher` lives in
`cornice_swagger.converters`, which is not under src.  Per §4.4 it maps a
field-level schema node plus its location into a `{name, in, required,
schema-fields...}` parameter object, normalizing the location string
(`headers` → `header`, `GET`/`querystring` → `query`), and for `body` it
produces a single body parameter carrying the converted schema. -/
def parameter_converter (location : String) (node : ColanderNode) : Json :=
  let loc :=
    if location = "headers" then "header"
    else if location = "querystring" ∨ location = "GET" then "query"
    else location
  if loc = "body" then
    .obj [("name", .str node.name), ("in", .str "body"),
          ("required", .bool node.required), ("schema", node.converted)]
  else
    .obj ([("name", .str node.name), ("in", .str loc),
           ("required", .bool node.required)] ++ node.converted.fields)

def refParamName (param : Json) : String :=
  match param.get "name" with
  | some (.str n) => n
  | _ => ""

/-- Embeds `param.get("title", "") or param.get("name", "")` -/
def refParamFallback (param : Json) : String :=
  match param.get "title" with
  | some (.str t) => if t = "" then refParamName param else t
  | _ => refParamName param

/-- Embeds `ParameterHandler._ref(param, base_name)` (lines 301-319): store the
parameter under `base_name or param.get("title", "") or param.get("name", "")`
and return the JSON pointer. -/
def refParam (param : Json) (base_name : Option String) (preg : Reg) : Json × Reg :=
  let name :=
    match base_name with
    | some b => if b = "" then refParamFallback param else b
    | none => refParamFallback param
  (Json.obj [("$ref", .str (param_json_pointer ++ name))], setKey preg name param)

/-- The `for node_schema in param_schema.children` loop of
`ParameterHandler.from_schema` for a non-body location (lines 271-275). -/
def paramsFromLocation (param_ref : Bool) (location : String)
    (nodes : List ColanderNode) (preg : Reg) : List Json × Reg :=
  match nodes with
  | [] => ([], preg)
  | n :: rest =>
    let param := parameter_converter location n
    let (param, preg) := if param_ref then refParam param none preg else (param, preg)
    let (params, preg) := paramsFromLocation param_ref location rest preg
    (param :: params, preg)

/-- The body branch of `ParameterHandler.from_schema` (lines 252-268). -/
def paramFromBody (param_ref : Bool) (dref : Int) (schema_name : String)
    (child : ColanderNode) (regs : Registries) : Except Err (Json × Registries) := do
  let name := if child.className = "body" then schema_name ++ "Body" else child.className
  let param := parameter_converter "body" child
  let param := Json.obj (setKey param.fields "name" (.str name))
  if param_ref then
    let (param, preg) := refParam param none regs.parameter_registry
    let regs := { regs with parameter_registry := preg }
    -- if definitions reference depth was also requested, loop down body
    -- elements and replace the parameter reference (lines 262-266)
    if dref ≠ 0 then
      let (body_ref, dreg) ← defFromSchema dref child (some name) regs.definition_registry
      -- `param_ref["schema"] = body_ref` mutates the registry entry in place
      match getKey regs.parameter_registry name with
      | some p =>
        let preg := setKey regs.parameter_registry name (.obj (setKey p.fields "schema" body_ref))
        .ok (param, { regs with definition_registry := dreg, parameter_registry := preg })
      | none =>
        -- `None["schema"] = ...` would be a TypeError
        .error .typeError
    else
      .ok (param, regs)
  else
    .ok (param, regs)

/-- The `for param_schema in schema_node.children` loop of
`ParameterHandler.from_schema` (lines 235-277). -/
def paramsFromChildren (param_ref : Bool) (dref : Int) (schema_name : String)
    (children : List ColanderNode) (regs : Registries) :
    Except Err (List Json × Registries) :=
  match children with
  | [] => .ok ([], regs)
  | child :: rest => do
    let (params, regs) ←
      if child.name = "body" then do
        let (p, regs) ← paramFromBody param_ref dref schema_name child regs
        .ok ([p], regs)
      else if child.name = "path" ∨ child.name = "header" ∨ child.name = "headers"
          ∨ child.name = "querystring" ∨ child.name = "GET" then
        let (ps, preg) := paramsFromLocation param_ref child.name child.children
          regs.parameter_registry
        .ok (ps, { regs with parameter_registry := preg })
      else
        .ok ([], regs)
    let (rest', regs) ← paramsFromChildren param_ref dref schema_name rest regs
    .ok (params ++ rest', regs)

/-- Embeds `ParameterHandler.from_schema(schema_node)` (lines 235-277). -/
def paramsFromSchema (param_ref : Bool) (dref : Int) (schema : ColanderNode)
    (regs : Registries) : Except Err (List Json × Registries) :=
  paramsFromChildren param_ref dref schema.className schema.children regs

/-- The `for name in param_names` loop of `from_path` (lines 291-297). -/
def fromPathNames (param_ref : Bool) (names : List String) (preg : Reg) :
    List Json × Reg :=
  match names with
  | [] => ([], preg)
  | n :: rest =>
    let node : ColanderNode :=
      { name := n, children := [], converted := .obj [("type", .str "string")] }
    let param := parameter_converter "path" node
    let (param, preg) := if param_ref then refParam param none preg else (param, preg)
    let (params, preg) := fromPathNames param_ref rest preg
    (param :: params, preg)

/-- Embeds `ParameterHandler.from_path(path)` (lines 279-299): one required string
path parameter per `{name}`-shaped path component.  The node built for each
name is `colander.SchemaNode(colander.String(), name=name)`, whose type
conversion is the plain string fragment. -/
def from_path (param_ref : Bool) (path : String) (preg : Reg) : List Json × Reg :=
  let components := strSplit path "/"
  let names := (components.filter
      (fun c => strStartsWithChar c '\x7b' && strEndsWithChar c '\x7d')).map
      strInner
  fromPathNames param_ref names preg

/-! ## ResponseHandler (swagger.py lines 322-416) -/

/-- Embeds `ResponseHandler.json_pointer` -/
def resp_json_pointer : String := "#/responses/"

/-- The title-stripping loop `for header in headers.values(): header.pop("title")`
(lines 377-378): `dict.pop` without a default raises KeyError when a header
property has no `title` key (and a non-dict property has no `pop` at all). -/
def strip_titles (props : Reg) : Except Err Reg :=
  match props with
  | [] => .ok []
  | (k, v) :: rest =>
    match v with
    | .obj fields =>
      if hasKey fields "title" then do
        let rest' ← strip_titles rest
        .ok ((k, .obj (removeKey fields "title")) :: rest')
      else
        .error .keyError
    | _ => .error .attributeError

/-- Embeds `ResponseHandler._ref(resp, base_name)` (lines 398-416). -/
def refResponse (resp : Json) (base_name : String) (rreg : Reg) : Json × Reg :=
  let name := if base_name = "" then refParamFallback resp else base_name
  (Json.obj [("$ref", .str (resp_json_pointer ++ name))], setKey rreg name resp)

/-- The `for field_schema in response_schema.children` loop
(lines 362-380). -/
def responseChildren (resp_ref : Bool) (dref : Int) (schema_name : String)
    (children : List ColanderNode) (response : Reg) (regs : Registries) :
    Except Err (Reg × Registries) :=
  match children with
  | [] => .ok (response, regs)
  | field :: rest => do
    let (response, regs) ←
      if field.name = "body" then do
        -- lines 365-370: set the node title, then
        -- `self.definitions.from_schema(field_schema)` with no base_name,
        -- which raises NameError (missing `six` import, see get_schema_name)
        let title := if field.className = "body" then schema_name ++ "Body" else field.className
        let (body_ref, dreg) ← defFromSchema dref { field with title := title } none
          regs.definition_registry
        .ok (setKey response "schema" body_ref, { regs with definition_registry := dreg })
      else if field.name = "header" ∨ field.name = "headers" then
        -- lines 372-380: `self.type_converter(field_schema)` is the node's
        -- converted fragment (converter module not under src)
        match field.converted.get "properties" with
        | some hs =>
          if hs.truthy then
            match hs with
            | .obj props => do
              let props' ← strip_titles props
              .ok (setKey response "headers" (.obj props'), regs)
            | _ => .error .attributeError
          else
            .ok (response, regs)
        | none => .ok (response, regs)
      else
        .ok (response, regs)
    responseChildren resp_ref dref schema_name rest response regs

/-- One iteration of the `for status, response_schema in schema_mapping.items()`
loop of `ResponseHandler.from_schema_mapping` (lines 355-394): build the
response object for one response schema. -/
def processResponse (resp_ref : Bool) (dref : Int) (s : ColanderNode)
    (regs : Registries) : Except Err (Json × Registries) := do
  -- lines 356-360: the mandatory description
  if s.description = "" then .error .missingDescription else
  let response : Reg := [("summary", .str s.description)]
  let (response, regs) ← responseChildren resp_ref dref s.className s.children response regs
  -- lines 382-384
  let pointer := s.className
  let (response, regs) ←
    if resp_ref then
      let (r, rreg) := refResponse (.obj response) pointer regs.response_registry
      .ok (r.fields, { regs with response_registry := rreg })
    else
      .ok (response, regs)
  -- lines 390-392: attach examples when they are a dict
  let response :=
    match s.examples with
    | some (.obj e) => setKey response "examples" (.obj e)
    | _ => response
  .ok (.obj response, regs)

/-- Embeds `ResponseHandler.from_schema_mapping(schema_mapping)` (lines 343-396)
over the ordered `{status: response_schema}` mapping. -/
def from_schema_mapping (resp_ref : Bool) (dref : Int)
    (mapping : List (String × ColanderNode)) (regs : Registries) :
    Except Err (Reg × Registries) :=
  match mapping with
  | [] => .ok ([], regs)
  | (status, s) :: rest => do
    let (response, regs) ← processResponse resp_ref dref s regs
    let (responses, regs) ← from_schema_mapping resp_ref dref rest regs
    .ok ((status, response) :: responses, regs)


/-! ## CorniceSwagger document assembly (swagger.py lines 419-1029) -/

mutual

/-- Modelled from the spec: `cornice_swagger.util.merge_dicts` is imported
by swagger.py but `util.py` is not under src.  Spec §4.6.8: path and
definition trees are "merged recursively (deep-merge, not overwrite)" and a
later view's fields augment the earlier, so keys of `changes` are
deep-merged into `base` when both values are dicts and otherwise take the
later value. -/
def merge_dicts (base changes : Json) : Json :=
  match base, changes with
  | .obj b, .obj c => .obj (merge_fields b c)
  | _, _ => changes

def merge_fields (b : Reg) (c : Reg) : Reg :=
  match c with
  | [] => b
  | (k, v) :: rest =>
    let b' :=
      match getKey b k, v with
      | some (.obj bo), .obj _ => setKey b k (merge_dicts (.obj bo) v)
      | _, _ => setKey b k v
    merge_fields b' rest

end

mutual

/-- Structural equality of JSON values (Python `==` on the ordered dict
representation; CPython dict equality additionally ignores key order, which
never matters for the dicts compared here). -/
def jsonBeq : Json → Json → Bool
  | .str a, .str b => a == b
  | .num a, .num b => a == b
  | .bool a, .bool b => a == b
  | .obj a, .obj b => fieldsBeq a b
  | .arr a, .arr b => elemsBeq a b
  | _, _ => false

def fieldsBeq : Reg → Reg → Bool
  | [], [] => true
  | (k, v) :: t, (k', v') :: t' => k == k' && jsonBeq v v' && fieldsBeq t t'
  | _, _ => false

def elemsBeq : List Json → List Json → Bool
  | [], [] => true
  | v :: t, v' :: t' => jsonBeq v v' && elemsBeq t t'
  | _, _ => false

end

instance : BEq Json := ⟨jsonBeq⟩

/-- Embeds `list.remove(x)`: drop the first element equal to `x`. -/
def removeFirstJson (l : List Json) (x : Json) : List Json :=
  match l with
  | [] => []
  | y :: t => if jsonBeq y x then t else y :: removeFirstJson t x

/-- The view arguments consumed by `_extract_operation_from_view`
(lines 894-1002).  The view callable itself carries no information the
embedding can reach: the only attribute reads on it sit behind
`isinstance(view, six.string_types)` expressions that raise NameError
before the attribute is touched, or behind the docstring feature which hits
the same NameError first. -/
structure ViewArgs where
  /-- Embeds `args['schema']` (a colander request schema, or absent) -/
  schema : Option ColanderNode := none
  /-- Embeds `args['response_schemas']` -/
  response_schemas : Option (List (String × ColanderNode)) := none
  /-- Embeds `args['content_type']`, already in list form (`cornice.util.to_list`
  is not under src; callables, which the source filters out, are not
  modelled) -/
  content_type : Option (List String) := none
  /-- Embeds `args['accept']` (`none` = key absent) -/
  accept : Option String := none
  /-- Embeds `args['renderer']` (`none` = key absent) -/
  renderer : Option String := none
  /-- Embeds `args['tags']` (tags are modelled as strings) -/
  tags : Option (List String) := none
  /-- Embeds `args['operation_id']` -/
  operation_id : Option String := none
  /-- Embeds `args['api_security']` -/
  api_security : Option (List Json) := none
  deriving Repr, Inhabited

/-- A cornice service descriptor: path, service-level tags and the
registered `(method, view, args)` triples (the view itself carries no
reachable information, see `ViewArgs`).  Services with a `pyramid_route`
(resolved through the pyramid introspector, lines 868-880) are not
modelled; the services here carry their path directly. -/
structure ServiceDef where
  path : String
  tags : List String := []
  definitions : List (String × ViewArgs) := []
  deriving Repr, Inhabited

/-- A `CorniceSwagger` instance: its configuration attributes and the
mutable state reachable from it (the handler registries, created once in
`__init__`, and the base `swagger` document).  The `default_op_ids`
attribute (a callable generator) is not modelled; its absence makes the
corresponding step of `_build_paths` a no-op, and no claim exercises it.
In Python `swagger = {'info': {}}` is a class-level attribute shared by
instances that do not override it; here each state carries its value, and
`generate`'s in-place mutations of it are reflected in the returned
state. -/
structure SwaggerState where
  services : List ServiceDef := []
  /-- Embeds `DefinitionHandler.ref` (constructor argument `def_ref_depth`) -/
  definitions_ref : Int := 0
  /-- Embeds `ParameterHandler.ref` (constructor argument `param_ref`) -/
  param_ref : Bool := false
  /-- Embeds `ResponseHandler.ref` (constructor argument `resp_ref`) -/
  resp_ref : Bool := false
  regs : Registries := {}
  /-- Embeds `default_tags` (static list form; the callable form is not modelled) -/
  default_tags : Option (List String) := none
  /-- Embeds `default_security` (static list form; the callable form is not modelled) -/
  default_security : Option (List Json) := none
  summary_docstrings : Bool := false
  ignore_methods : List String := ["HEAD", "OPTIONS"]
  ignore_ctypes : List String := []
  api_title : String := ""
  api_version : String := ""
  base_path : String := "/"
  swagger : Json := .obj [("info", .obj [])]
  openapi_spec : Int := 3
  default_content_type : String := "application/json"
  deriving Repr, Inhabited

/-- Embeds `CorniceSwagger.__init__(services, def_ref_depth, param_ref, resp_ref, ...)`
(lines 525-573): instantiates the three handlers, whose constructors create
their registries empty (lines 99, 228, 337). -/
def SwaggerState.init (services : List ServiceDef) (def_ref_depth : Int := 0)
    (param_ref : Bool := false) (resp_ref : Bool := false) : SwaggerState :=
  { services, definitions_ref := def_ref_depth, param_ref, resp_ref, regs := {} }

/-- Modelled from the spec: `cornice.Service.renderer` is the external web
framework's default renderer; the source treats it as a JSON renderer
(`renderer == Service.renderer` sits in the `is_json_renderer` disjunction)
and §6 gives JSON as the default content type. -/
def service_default_renderer : String := "json"

/-- Embeds `CorniceSwagger._extract_operation_from_view(view, args)`
(lines 894-1002). -/
def extract_operation (st : SwaggerState) (args : ViewArgs) (regs : Registries) :
    Except Err (Json × Registries) := do
  let op : Reg :=
    [("responses", .obj [("default", .obj [("description", .str "UNDOCUMENTED RESPONSE")])])]
  -- renderer = args.get('accept', args.get('renderer', ''))
  let renderer := match args.accept with
    | some a => a
    | none => match args.renderer with | some r => r | none => ""
  let is_json_renderer := strContains renderer "json" || renderer == service_default_renderer
  let produces : Option (List String) :=
    if strContains renderer "/" then some [renderer]
    else if is_json_renderer then some ["application/json"]
    else if strContains renderer "xml" then some ["text/xml"]
    else none
  let op := match produces with
    | some p => setKey op "produces" (.arr (p.map .str))
    | none => op
  -- consumes = args.get("content_type") (already a list; callables filtered out)
  let op := match args.content_type with
    | some cs => setKey op "consumes" (.arr (cs.map .str))
    | none => op
  -- parameters from the view schema; `_extract_transform_colander_schema`
  -- clones the schema and applies the schema transformers
  -- (cornice_swagger.util.body_schema_transformer, not under src).
  -- Modelled from the spec: the transformers normalize the view schema into
  -- request form; the schemas in this model are already request-shaped, so
  -- the transformation is the identity.
  let (op, deprecated, regs) ←
    match args.schema with
    | some schema => do
      let (params, regs) ← paramsFromSchema st.param_ref st.definitions_ref schema regs
      let op := if params.isEmpty then op else setKey op "parameters" (.arr params)
      .ok (op, schema.deprecated, regs)
    | none => .ok (op, false, regs)
  -- lines 959-964: `if not deprecated and not isinstance(view, six.string_types)`
  -- evaluates `six.string_types` whenever `deprecated` is false; `six` is
  -- never imported, so this raises NameError.
  if !deprecated then .error .nameError else
  let op := setKey op "deprecated" (.bool true)
  -- lines 966-971 duplicate the block verbatim; with deprecated = True only
  -- the (idempotent) assignment runs again
  let op := setKey op "deprecated" (.bool true)
  -- lines 974-984: the docstring feature evaluates `six.string_types` at
  -- line 976, raising the same NameError when enabled
  if st.summary_docstrings then .error .nameError else
  let (op, regs) ←
    match args.response_schemas with
    | some m => do
      let (rs, regs) ← from_schema_mapping st.resp_ref st.definitions_ref m regs
      .ok (setKey op "responses" (.obj rs), regs)
    | none => .ok (op, regs)
  let op := match args.tags with
    | some ts => setKey op "tags" (.arr (ts.map .str))
    | none => op
  let op := match args.operation_id with
    | some i => setKey op "operationId" (.str i)
    | none => op
  let op := match args.api_security with
    | some s => setKey op "security" (.arr s)
    | none => op
  .ok (.obj op, regs)

/-- The `for param in parameters` body-collecting loop of
`_convert_to_oas3` (lines 772-782).  `parameters.remove(param)` shrinks the
list the Python iterator walks by index, so the element following a removed
body parameter is skipped; `idx` is the iterator's index. -/
def scanBodies (fuel : Nat) (preg : Reg) (params : List Json) (idx : Nat)
    (bodies : List (Json × Option Json × Option String)) :
    Except Err (List Json × List (Json × Option Json × Option String)) :=
  match fuel with
  | 0 => .error .fuel
  | fuel + 1 =>
  if h : idx < params.length then
    let param := params.get ⟨idx, h⟩
    match getKey param.fields "$ref" with
    | some (.str r) =>
      -- param_key = param['$ref'].split('/parameters/')[-1]
      let key := (strSplit r "/parameters/").getLastD ""
      match getKey preg key with
      | some param_def =>
        if param_def.get "in" == some (.str "body") then
          scanBodies fuel preg (removeFirstJson params param) (idx + 1)
            (bodies ++ [(param_def, some param, some key)])
        else
          scanBodies fuel preg params (idx + 1) bodies
      | none =>
        -- `None.get('in')` raises AttributeError
        .error .attributeError
    | _ =>
      if param.get "in" == some (.str "body") then
        scanBodies fuel preg (removeFirstJson params param) (idx + 1)
          (bodies ++ [(param, none, none)])
      else
        scanBodies fuel preg params (idx + 1) bodies
  else
    .ok (params, bodies)

/-- The `for ctype in consumes` loop of `_convert_to_oas3` (lines 798-801).
`required = required or body.pop('required', False)` short-circuits: the
pop only happens while `required` is still false. -/
def ctypeLoop (body : Json) (bodyRef : Option Json) (required : Bool)
    (content : Reg) : List String → Json × Bool × Reg
  | [] => (body, required, content)
  | ctype :: rest =>
    let (required, body) :=
      if required then (true, body)
      else
        ((match getKey body.fields "required" with
          | some v => v.truthy
          | none => false),
         Json.obj (removeKey body.fields "required"))
    let body_def := match bodyRef with | some r => r | none => body
    let content := setKey content ctype body_def
    ctypeLoop body bodyRef required content rest

/-- The `for body, body_ref in bodies` loop of `_convert_to_oas3`
(lines 792-801).  The pops on `body` mutate the parameter-registry entry it
was looked up from, and the reassignment of `consumes` persists across
bodies. -/
def requestBodyLoop (preg : Reg)
    (bodies : List (Json × Option Json × Option String))
    (consumes : List String) (default_ctype : String) (required : Bool)
    (content : Reg) : Except Err (Reg × Bool × Reg) :=
  match bodies with
  | [] => .ok (content, required, preg)
  | (body, bodyRef, regKey) :: rest => do
    -- body.pop('in'): KeyError when absent
    if !hasKey body.fields "in" then .error .keyError else
    let body := Json.obj (removeKey body.fields "in")
    -- getattr(body, 'content_type', default) on a dict is always the default
    let consumes := if consumes.isEmpty then [default_ctype] else consumes
    let (body, required, content) := ctypeLoop body bodyRef required content consumes
    let preg := match regKey with
      | some k => setKey preg k body
      | none => preg
    requestBodyLoop preg rest consumes default_ctype required content

/-- One `produces` round of the response conversion when the response is a
plain object holding a truthy `schema` (lines 816-822). -/
def oas3RespBodyLoop (rl : Reg) (body : Json) : List String → Reg
  | [] => rl
  | ctype :: rest =>
    let content : Reg := [("schema", body)]
    let ex := getKey rl "examples"
    let rl := removeKey rl "examples"
    let content := match ex with
      | some e => if e.truthy then setKey content "examples" e else content
      | none => content
    let rl := setKey rl "content" (.obj [(ctype, Json.obj content)])
    let rl := removeKey rl "$ref"
    oas3RespBodyLoop rl body rest

/-- One `produces` round when the response carries a `$ref` (line 812:
`body = resp`, so the copied schema is the current state of the response
object itself, which the same loop then mutates). -/
def oas3RespRefLoop (rl : Reg) : List String → Reg
  | [] => rl
  | ctype :: rest =>
    let contentSchema := Json.obj rl
    let ex := getKey rl "examples"
    let rl := removeKey rl "examples"
    let content : Reg := [("schema", contentSchema)]
    let content := match ex with
      | some e => if e.truthy then setKey content "examples" e else content
      | none => content
    let rl := setKey rl "content" (.obj [(ctype, Json.obj content)])
    let rl := removeKey rl "$ref"
    oas3RespRefLoop rl rest

/-- Response conversion for one status code (lines 810-822). -/
def oas3Response (produces : List String) (resp : Json) : Except Err Json :=
  match resp with
  | .obj rl =>
    if hasKey rl "$ref" then
      .ok (.obj (oas3RespRefLoop rl produces))
    else
      let body := getKey rl "schema"
      let rl := removeKey rl "schema"  -- resp.pop('schema', None)
      match body with
      | some b =>
        if b.truthy then .ok (.obj (oas3RespBodyLoop rl b produces)) else .ok (.obj rl)
      | none => .ok (.obj rl)
  | _ => .error .attributeError

/-- The `for code in operations.get('responses', [])` loop (lines 807-822),
skipping the `default` entry. -/
def oas3Responses (produces : List String) : Reg → Except Err Reg
  | [] => .ok []
  | (code, resp) :: rest => do
    let resp ← if code = "default" then .ok resp else oas3Response produces resp
    let rest ← oas3Responses produces rest
    .ok ((code, resp) :: rest)

/-- Embeds `CorniceSwagger._convert_to_oas3(operations)` (lines 757-823). -/
def convert_to_oas3 (default_ctype : String) (op : Json) (preg : Reg) :
    Except Err (Json × Reg) := do
  let fields := op.fields
  -- consumes = operations.pop('consumes', [])
  let consumes := match getKey fields "consumes" with
    | some (.arr l) => l.filterMap (fun j => match j with | .str s => some s | _ => none)
    | _ => []
  let fields := removeKey fields "consumes"
  let hadParams := hasKey fields "parameters"
  let params := match getKey fields "parameters" with | some (.arr l) => l | _ => []
  -- the iterator advances `idx` once per round and the list never grows, so
  -- `params.length + 1` rounds of fuel always suffice
  let (params, bodies) ← scanBodies (params.length + 1) preg params 0 []
  let fields := if hadParams then setKey fields "parameters" (.arr params) else fields
  let (fields, preg) ←
    if bodies.isEmpty then .ok (fields, preg)
    else do
      let (content, required, preg) ← requestBodyLoop preg bodies consumes default_ctype false []
      .ok (setKey fields "requestBody"
        (.obj [("content", .obj content), ("required", .bool required)]), preg)
  -- produces = operations.pop('produces', []) or [default]
  let produces := match getKey fields "produces" with
    | some (.arr l) => l.filterMap (fun j => match j with | .str s => some s | _ => none)
    | _ => []
  let fields := removeKey fields "produces"
  let produces := if produces.isEmpty then [default_ctype] else produces
  let fields ←
    match getKey fields "responses" with
    | some (.obj rs) => do
      let rs ← oas3Responses produces rs
      .ok (setKey fields "responses" (.obj rs))
    | _ => .ok fields
  .ok (.obj fields, preg)

/-- The dicts built by `_extract_info` inside `_validate_diff_oas3`
(lines 831-844): `{"type": "response", "ctype": ..., "code": ...}`. -/
structure Variation where
  vtype : String
  ctype : String
  code : String
  deriving Repr, DecidableEq

/-- Embeds `_extract_info(op)` (lines 831-844): one variation per
(response status, content type) pair of the operation. -/
def extract_info (op : Json) : List Variation :=
  match op.get "responses" with
  | some (.obj rs) =>
    rs.flatMap (fun p =>
      match (p.2).get "content" with
      | some (.obj cs) => cs.map (fun c => { vtype := "response", ctype := c.1, code := p.1 })
      | _ => [])
  | _ => []

/-- Embeds `CorniceSwagger._validate_diff_oas3(operation, previous_definition, path)`
(lines 825-853). -/
def validate_diff_oas3 (operation previous : Json) (path : String) :
    Except Err Unit :=
  let var_oper := extract_info operation
  let var_prev := extract_info previous
  if var_oper.any (fun vo => var_prev.any (fun vp => decide (vo = vp))) then
    .error (.conflictingContentType path)
  else
    .ok ()

/-- Embeds `CorniceSwagger._get_tags(current_tags, new_tags)` (lines 664-670),
with tags as their names. -/
def get_tags (current new : List String) : List String :=
  new.foldl (fun acc t => if acc.contains t then acc else acc ++ [t]) current

/-- Embeds `list(OrderedDict.fromkeys(new_tags))` (line 728). -/
def dedupFirst (l : List String) : List String :=
  get_tags [] l

/-- Embeds `op.get("tags", [])` followed by `_check_tags` (lines 659-662, 722-723):
error when the value is present and not a list. -/
def getTagList (op : Json) : Except Err (List String) :=
  match op.get "tags" with
  | none => .ok []
  | some (.arr l) => .ok (l.filterMap (fun j => match j with | .str s => some s | _ => none))
  | some _ => .error .tagsNotList

/-- One iteration of the `for method, view, args in service.definitions`
loop of `_build_paths` (lines 687-752), over the accumulated
`(path_obj, root tags, registries)`. -/
def process_definition (st : SwaggerState) (path : String)
    (service_tags : List String) (acc : Reg × List String × Registries)
    (d : String × ViewArgs) : Except Err (Reg × List String × Registries) := do
  let (path_obj, rtags, regs) := acc
  let (method, args) := d
  let method_key := strToLower method
  if (st.ignore_methods.map strToLower).contains method_key then .ok acc else
  let (op, regs) ← extract_operation st args regs
  -- any(ctype in op.get("consumes", []) for ctype in self.ignore_ctypes)
  let consumesList := match op.get "consumes" with | some (.arr l) => l | _ => []
  if st.ignore_ctypes.any (fun c => consumesList.any (fun j => j == .str c)) then
    .ok (path_obj, rtags, regs)
  else
  let previous := getKey path_obj method_key
  let prevTruthy := match previous with | some p => p.truthy | none => false
  let (op, regs) ←
    if st.openapi_spec < 3 then
      if prevTruthy then .error .duplicateMethod else .ok (op, regs)
    else do
      let (op, preg) ← convert_to_oas3 st.default_content_type op regs.parameter_registry
      let regs := { regs with parameter_registry := preg }
      if prevTruthy then do
        let _ ← validate_diff_oas3 op ((previous.getD (.obj []))) path
        .ok (op, regs)
      else
        .ok (op, regs)
  -- default tags (lines 716-720; only the static-list form is modelled)
  let op :=
    match op.get "tags", st.default_tags with
    | none, some dt => Json.obj (setKey op.fields "tags" (.arr (dt.map .str)))
    | _, _ => op
  let op_tags ← getTagList op
  -- add service tags (lines 726-728)
  let op :=
    if service_tags.isEmpty then op
    else Json.obj (setKey op.fields "tags"
      (.arr ((dedupFirst (service_tags ++ op_tags)).map .str)))
  -- add method tags to root tags (line 731)
  let rtags := get_tags rtags op_tags
  -- default operation ids (lines 734-737) are generated by a callable
  -- `default_op_ids`, not modelled (see SwaggerState); with it unset the
  -- step is a no-op
  -- default security (lines 740-744; static-list form)
  let op :=
    match op.get "security", st.default_security with
    | none, some s => Json.obj (setKey op.fields "security" (.arr s))
    | _, _ => op
  -- lines 746-747
  let _ ← (match op.get "security" with
    | none => .ok ()
    | some (.arr _) => .ok ()
    | some _ => .error Err.securityNotList)
  let path_obj :=
    match previous, prevTruthy with
    | some prev, true => setKey path_obj method_key (merge_dicts prev op)
    | _, _ => setKey path_obj method_key op
  .ok (path_obj, rtags, regs)

/-- Embeds `CorniceSwagger._extract_path_from_service(service)` (lines 855-892)
for services carrying their path directly (no pyramid route). -/
def extract_path_from_service (st : SwaggerState) (svc : ServiceDef)
    (regs : Registries) : String × Reg × Registries :=
  let path := strReplace (strReplace svc.path "*subpath" "\x7bsubpath\x7d") "*traverse" "\x7bsubpath\x7d"
  let (params, preg) := from_path st.param_ref path regs.parameter_registry
  let path_obj : Reg := if params.isEmpty then [] else [("parameters", .arr params)]
  (path, path_obj, { regs with parameter_registry := preg })

/-- One iteration of the `for service in self.services` loop of
`_build_paths` (lines 680-753). -/
def process_service (st : SwaggerState) (acc : Reg × List String × Registries)
    (svc : ServiceDef) : Except Err (Reg × List String × Registries) := do
  let (paths, rtags, regs) := acc
  let (path, path_obj, regs) := extract_path_from_service st svc regs
  -- service.tags is a list by construction, so `_check_tags` passes
  let rtags := get_tags rtags svc.tags
  let (path_obj, rtags, regs) ←
    svc.definitions.foldlM (process_definition st path svc.tags) (path_obj, rtags, regs)
  .ok (setKey paths path (.obj path_obj), rtags, regs)

/-- Embeds `CorniceSwagger._build_paths()` (lines 672-755). -/
def build_paths (st : SwaggerState) (regs : Registries) :
    Except Err (Reg × List String × Registries) :=
  st.services.foldlM (process_service st) ([], [], regs)

/-- Embeds `t["name"]` for each tag already present in the base document
(line 624): KeyError when an entry has no `name`. -/
def tagNamesOf (l : List Json) : Except Err (List String) :=
  l.mapM (fun t =>
    match t.get "name" with
    | some (.str n) => .ok n
    | some _ => .ok ""
    | none => .error Err.keyError)

/-- The aliasing left by `swagger.copy()` (line 609): the shallow copy
shares every nested value with the base document, so the in-place merges
`generate` performs on the copy's `tags`/`paths`/`definitions`/`parameters`/
`responses` entries are visible through the base document whenever the base
document already had the key (when it did not, `setdefault` gave the copy a
fresh object of its own). -/
def mirrorShared (base : Reg) (doc : Reg) : List String → Reg
  | [] => base
  | k :: rest =>
    let base :=
      if hasKey base k then
        match getKey doc k with
        | some v => setKey base k v
        | none => base
      else base
    mirrorShared base doc rest

/-- Embeds `CorniceSwagger.generate(title, version, base_path, info, swagger,
openapi_spec)` (lines 575-649).  Returns the produced document together
with the post-call instance state (mutated registries, `openapi_spec`, and
the in-place updates to the base `swagger` document). -/
def generate (st : SwaggerState) (title version base_path : Option String)
    (info swagger : Option Json) (openapi_spec : Int) :
    Except Err (Json × SwaggerState) := do
  -- LooseVersion(str(openapi_spec)).version[0] not in [2, 3]
  if openapi_spec ≠ 2 ∧ openapi_spec ≠ 3 then .error .invalidSpecVersion else
  let st := { st with openapi_spec := openapi_spec }
  let title := match title with
    | some t => if t = "" then st.api_title else t
    | none => st.api_title
  let version := match version with
    | some v => if v = "" then st.api_version else v
    | none => st.api_version
  -- info = info or self.swagger.get("info", {})
  let infoFromSelf := !(match info with | some i => i.truthy | none => false)
  let info := if infoFromSelf then (st.swagger.get "info").getD (.obj []) else info.getD (.obj [])
  -- swagger = swagger or self.swagger
  let baseFromSelf := !(match swagger with | some s => s.truthy | none => false)
  let base_path := match base_path with
    | some b => if b = "" then st.base_path else b
    | none => st.base_path
  -- info.update(title=title, version=version): an in-place dict update ...
  let newInfo ← (match info with
    | .obj l => .ok (Json.obj (setKey (setKey l "title" (.str title)) "version" (.str version)))
    | _ => .error Err.attributeError)
  -- ... visible through self.swagger whenever info came from it
  let selfSwagger :=
    if infoFromSelf && hasKey st.swagger.fields "info" then
      Json.obj (setKey st.swagger.fields "info" newInfo)
    else st.swagger
  let st := { st with swagger := selfSwagger }
  -- swagger = swagger.copy(); swagger.update(info=info, basePath=base_path)
  let doc ← (match (if baseFromSelf then selfSwagger else swagger.getD (.obj [])) with
    | .obj l => .ok l
    | _ => .error Err.attributeError)
  let doc := setKey doc "info" newInfo
  let doc := setKey doc "basePath" (.str base_path)
  let doc :=
    if openapi_spec = 2 then removeKey (setKey doc "swagger" (.str "2.0")) "openapi"
    else removeKey (setKey doc "openapi" (.str "3.0.0")) "swagger"
  let (paths, tagNames, regs) ← build_paths st st.regs
  let st := { st with regs := regs }
  -- update provided tags with the extracted ones preserving order
  let doc ←
    if tagNames.isEmpty then .ok doc
    else do
      let existing := match getKey doc "tags" with | some (.arr l) => l | _ => []
      let existingNames ← tagNamesOf existing
      let newTags := tagNames.filter (fun n => !existingNames.contains n)
      .ok (setKey doc "tags" (.arr (existing ++ newTags.map (fun n => Json.obj [("name", .str n)]))))
  -- merge paths and the three registries into their sections
  let doc :=
    if paths.isEmpty then doc
    else
      let existing := (getKey doc "paths").getD (.obj [])
      setKey doc "paths" (merge_dicts existing (.obj paths))
  let doc :=
    if regs.definition_registry.isEmpty then doc
    else
      let existing := (getKey doc "definitions").getD (.obj [])
      setKey doc "definitions" (merge_dicts existing (.obj regs.definition_registry))
  let doc :=
    if regs.parameter_registry.isEmpty then doc
    else
      let existing := (getKey doc "parameters").getD (.obj [])
      setKey doc "parameters" (merge_dicts existing (.obj regs.parameter_registry))
  let doc :=
    if regs.response_registry.isEmpty then doc
    else
      let existing := (getKey doc "responses").getD (.obj [])
      setKey doc "responses" (merge_dicts existing (.obj regs.response_registry))
  let selfSwagger :=
    if baseFromSelf then
      Json.obj (mirrorShared selfSwagger.fields doc
        ["tags", "paths", "definitions", "parameters", "responses"])
    else selfSwagger
  .ok (.obj doc, { st with swagger := selfSwagger })


/-! ## Spec-side descriptions and concrete inputs used by the claims -/

/-- Spec-side reading of claim C7: the path components entirely enclosed in
braces, in order, with the braces stripped. -/
def bracedComponents (path : String) : List String :=
  ((strSplit path "/").filter
    (fun c => strStartsWithChar c '\x7b' && strEndsWithChar c '\x7d')).map
    strInner

/-- Spec-side reading of claim C7: a required string path parameter. -/
def pathParam (n : String) : Json :=
  .obj [("name", .str n), ("in", .str "path"),
        ("required", .bool true), ("type", .str "string")]

/-- Spec-side reading of claim C4: the (response status, content type)
pairs declared by an operation object. -/
def respPairs (op : Json) : List (String × String) :=
  match op.get "responses" with
  | some (.obj rs) =>
    rs.flatMap (fun p =>
      match (p.2).get "content" with
      | some (.obj cs) => cs.map (fun c => (p.1, c.1))
      | _ => [])
  | _ => []

/-- A two-level nested object fragment (claim C1's witness input). -/
def twoLevelNode : ColanderNode :=
  { children := []
    converted := .obj
      [("type", .str "object"),
       ("properties", .obj
         [("a", .obj
           [("type", .str "object"),
            ("properties", .obj [("b", .obj [("type", .str "string")])])])])] }

/-- A schema node carrying a title, for claim C5: the title should be the
fallback name when `base_name` is omitted. -/
def titledNode : ColanderNode :=
  { title := "Thing", children := [], converted := .obj [("type", .str "object")] }

/-- A response schema with a description and no children. -/
def respClean : ColanderNode :=
  { className := "ROk", description := "ok", children := [] }

/-- A response schema whose description is empty. -/
def respNoDesc : ColanderNode :=
  { className := "RBad", description := "", children := [] }

/-- A headers child whose converted fragment has a property without a
`title` key. -/
def hdrNoTitle : ColanderNode :=
  { name := "header", children := []
    converted := .obj
      [("type", .str "object"),
       ("properties", .obj [("X", .obj [("type", .str "string")])])] }

/-- A headers child whose converted fragment titles all its properties. -/
def hdrTitled : ColanderNode :=
  { name := "header", children := []
    converted := .obj
      [("type", .str "object"),
       ("properties", .obj
         [("X", .obj [("title", .str "X"), ("type", .str "string")])])] }

/-- A response schema with a description and one untitled header
property. -/
def respHdrNoTitle : ColanderNode :=
  { className := "RHdr", description := "ok", children := [hdrNoTitle] }

/-- A response schema with a description and one titled header property. -/
def respHdrTitled : ColanderNode :=
  { className := "RHdr2", description := "ok", children := [hdrTitled] }

/-- Claim C2's counterexample mapping: the first entry fails while its
headers are processed, before the second entry's missing description is
ever checked. -/
def c2cexMapping : List (String × ColanderNode) :=
  [("200", respHdrNoTitle), ("404", respNoDesc)]

/-- A service registering two GET views with no schemas (claim C3). -/
def svcDupPlain : ServiceDef :=
  { path := "/jobs", definitions := [("GET", {}), ("GET", {})] }

/-- View args whose schema sets `deprecated = True`, which short-circuits
the `not deprecated and not isinstance(view, six.string_types)` checks and
so avoids the NameError of the missing `six` import. -/
def argsDeprecated : ViewArgs :=
  { schema := some { className := "S", deprecated := true, children := [] } }

/-- A service registering two GET views whose schemas set deprecated
(claim C3: this variant reaches the duplicate-method check). -/
def svcDupDeprecated : ServiceDef :=
  { path := "/jobs", definitions := [("GET", argsDeprecated), ("GET", argsDeprecated)] }

/-- View args with a response schema and a given accept content type
(claim C4's witness). -/
def argsAccept (acc : String) : ViewArgs :=
  { schema := some { className := "S", deprecated := true, children := [] }
    accept := some acc
    response_schemas := some [("200", respClean)] }

/-- A body child used for claim C6: registered under `MyBody` when the
parameter and definition reference modes are on. -/
def c6Body : ColanderNode :=
  { name := "body", className := "MyBody", children := []
    converted := .obj
      [("type", .str "object"),
       ("properties", .obj [("f", .obj [("type", .str "string")])])] }

/-- The request schema holding `c6Body` (deprecated, to pass the six
checks). -/
def c6Req : ColanderNode :=
  { className := "Req", deprecated := true, children := [c6Body] }

/-- The service for claim C6's scenario. -/
def c6Svc : ServiceDef :=
  { path := "/x", definitions := [("GET", { schema := some c6Req })] }

/-- The instance for claim C6's scenario: definition splitting depth 1 and
parameter references on. -/
def c6St : SwaggerState := SwaggerState.init [c6Svc] 1 true false

/-- The fragment registered under `MyBody` in claim C6's scenario. -/
def c6Frag : Json := c6Body.converted



/-- The instance used by claim C4's witness: response references enabled
(so the converted responses carry per-content-type entries). -/
def c4St : SwaggerState := SwaggerState.init [] 0 false true

/-- The operation extracted from `argsAccept "text/xml"` on `c4St`. -/
def c4Op0 : Json :=
  .obj [("responses", .obj [("200", .obj [("$ref", .str "#/responses/ROk")])]),
        ("produces", .arr [.str "text/xml"]),
        ("deprecated", .bool true)]

/-- The registries after extracting `c4Op0`. -/
def c4Regs1 : Registries :=
  { response_registry := [("ROk", .obj [("summary", .str "ok")])] }

/-- The OpenAPI-3 conversion of `c4Op0`. -/
def c4Op : Json :=
  .obj [("responses", .obj [("200", .obj [("content", .obj [("text/xml",
          .obj [("schema", .obj [("$ref", .str "#/responses/ROk")])])])])]),
        ("deprecated", .bool true)]

/-- The previously assembled operation for the same method, declaring the
same status under a different content type. -/
def c4Prev : Json :=
  .obj [("responses", .obj [("200", .obj [("content", .obj [("application/json",
          .obj [("schema", .obj [("$ref", .str "#/responses/ROk")])])])])]),
        ("deprecated", .bool true)]



/-- The parameter registered under `MyBody` in claim C6's scenario. -/
def c6Param : Json :=
  .obj [("name", .str "MyBody"), ("in", .str "body"), ("required", .bool true),
        ("schema", .obj [("$ref", .str "#/definitions/MyBody")])]

/-- The document returned by the first `generate` call of claim C6's
scenario. -/
def c6Doc1 : Json :=
  .obj [("info", .obj [("title", .str ""), ("version", .str "")]),
        ("basePath", .str "/"),
        ("swagger", .str "2.0"),
        ("paths", .obj [("/x", .obj [("get", .obj
          [("responses", .obj [("default", .obj
             [("description", .str "UNDOCUMENTED RESPONSE")])]),
           ("parameters", .arr [.obj [("$ref", .str "#/parameters/MyBody")]]),
           ("deprecated", .bool true)])])]),
        ("definitions", .obj [("MyBody", c6Frag)]),
        ("parameters", .obj [("MyBody", c6Param)])]

/-- The instance state after the first `generate` call of claim C6's
scenario: the registries remain populated and the base document's info
mapping has been updated in place. -/
def c6St1 : SwaggerState :=
  { c6St with
    regs := ⟨[("MyBody", c6Frag)], [("MyBody", c6Param)], []⟩
    swagger := .obj [("info", .obj [("title", .str ""), ("version", .str "")])]
    openapi_spec := 2 }


/-! ## Helper lemmas -/

theorem getKey_setKey_self (l : Reg) (k : String) (v : Json) :
    getKey (setKey l k v) k = some v := by
  induction l with
  | nil => simp [setKey, getKey]
  | cons p t ih =>
    obtain ⟨k', v'⟩ := p
    by_cases h : k' = k <;> simp [setKey, getKey, h, ih]

theorem getKey_setKey_ne (l : Reg) (k k' : String) (v : Json) (h : k ≠ k') :
    getKey (setKey l k v) k' = getKey l k' := by
  induction l with
  | nil => simp [setKey, getKey, h]
  | cons p t ih =>
    obtain ⟨k'', v''⟩ := p
    by_cases h2 : k'' = k
    · subst h2; simp [setKey, getKey, h]
    · simp [setKey, getKey, h2, ih]

theorem setKey_self (l : Reg) (k : String) (v : Json) (h : getKey l k = some v) :
    setKey l k v = l := by
  induction l with
  | nil => simp [getKey] at h
  | cons p t ih =>
    obtain ⟨k', v'⟩ := p
    by_cases h2 : k' = k
    · subst h2
      simp [getKey] at h
      simp [setKey, h]
    · simp [getKey, h2] at h
      simp [setKey, h2, ih h]

theorem ref_recursive_zero (fuel : Nat) (s : Json) (bn : Option String) (reg : Reg) :
    ref_recursive fuel s 0 bn reg = .ok (s, reg) := by
  rw [ref_recursive.eq_def]
  simp

theorem ref_props_zero (fuel : Nat) (props : Reg) (reg : Reg)
    (h : props.length < fuel) :
    ref_props fuel props 0 reg = .ok (props, reg) := by
  induction props generalizing fuel reg with
  | nil =>
    cases fuel with
    | zero => omega
    | succ f => rw [ref_props.eq_def]
  | cons p t ih =>
    cases fuel with
    | zero => omega
    | succ f =>
      obtain ⟨k, v⟩ := p
      rw [ref_props.eq_def]
      simp only [List.length_cons] at h
      simp [bind, Except.bind, ref_recursive_zero, ih f reg (by omega)]


theorem mem_of_getKey (l : Reg) (k : String) (v : Json) (h : getKey l k = some v) :
    (k, v) ∈ l := by
  induction l with
  | nil => simp [getKey] at h
  | cons p t ih =>
    obtain ⟨k', v'⟩ := p
    by_cases h2 : k' = k
    · subst h2
      simp [getKey] at h
      simp [h]
    · simp [getKey, h2] at h
      simp [ih h]

theorem fieldsSize_of_mem (l : Reg) (k : String) (v : Json) (h : (k, v) ∈ l) :
    1 + jsonSize v ≤ jsonFieldsSize l := by
  induction l with
  | nil => simp at h
  | cons p t ih =>
    obtain ⟨k', v'⟩ := p
    rcases List.mem_cons.mp h with h1 | h1
    · cases h1
      simp [jsonFieldsSize]
    · have := ih h1
      simp [jsonFieldsSize]
      omega

theorem length_le_fieldsSize (l : Reg) : l.length ≤ jsonFieldsSize l := by
  induction l with
  | nil => simp [jsonFieldsSize]
  | cons p t ih =>
    obtain ⟨k, v⟩ := p
    simp [jsonFieldsSize]
    omega

theorem props_len_lt (l : Reg) (props : Reg)
    (h : getKey l "properties" = some (.obj props)) :
    props.length < 3 * jsonSize (.obj l) + 1 := by
  have h1 := fieldsSize_of_mem l "properties" (.obj props) (mem_of_getKey _ _ _ h)
  have h2 := length_le_fieldsSize props
  simp [jsonSize] at h1 ⊢
  omega

/-- Calling `DefinitionHandler.from_schema` with no usable base name always
raises the NameError of the missing `six` import. -/
theorem defFromSchema_none (dref : Int) (node : ColanderNode) (reg : Reg) :
    defFromSchema dref node none reg = .error .nameError := rfl

/-! ## Claim theorems -/

/-- C5: the claim says the definition name is resolved by trying, in order,
`base_name`, the node's title, its name, and its class identifier, and that
`from_schema` never fails merely because `base_name` was omitted.  The code
contradicts this (and `_get_schema_name`'s own docstring): the fallback
loop evaluates `six.string_types` although `swagger.py` never imports
`six`, so omitting `base_name` raises NameError even for a node with a
title, while the identical call with an explicit name succeeds. -/
theorem schema_name_fallback_nameerror_eval :
    defFromSchema 0 titledNode none [] = .error .nameError ∧
    defFromSchema 0 titledNode (some "Thing") [] = .ok (titledNode.converted, []) := by
  constructor
  · rfl
  · rfl

/-- C3: the claim says registering two views for the same non-ignored
method raises the duplicate-method error under OpenAPI 2.  The duplicate
check exists (lines 702-707) and fires when reached, but
`_extract_operation_from_view` evaluates `six.string_types` (line 961,
`six` never imported) before the check whenever the view's schema does not
set `deprecated = True`, so the ordinary two-view service raises NameError
instead; only schemas with `deprecated = True` short-circuit past the slip
and reach the documented DuplicateMethodError. -/
theorem swagger2_duplicate_method_eval :
    generate (SwaggerState.init [svcDupPlain]) none none none none none 2 =
      .error .nameError ∧
    generate (SwaggerState.init [svcDupDeprecated]) none none none none none 2 =
      .error .duplicateMethod := by
  constructor
  · rfl
  · rfl

/-- C7: `from_path` yields exactly one parameter per path component
entirely enclosed in braces, in path order, each with `in: path`,
`required: true` and the generic string type; in particular
`/jobs/{job_id}/outputs/{output_id}` gives the two parameters `job_id` and
`output_id` in that order. -/
theorem from_path_braced_components (path : String) (preg : Reg) :
    from_path false path preg = ((bracedComponents path).map pathParam, preg) ∧
    from_path false "/jobs/{job_id}/outputs/{output_id}" [] =
      ([pathParam "job_id", pathParam "output_id"], []) := by
  constructor
  · have h : ∀ (names : List String) (preg : Reg),
        fromPathNames false names preg = (names.map pathParam, preg) := by
      intro names
      induction names with
      | nil => intro preg; rfl
      | cons n t ih =>
        intro preg
        simp [fromPathNames, parameter_converter, pathParam, Json.fields, ih]
    rw [from_path, bracedComponents, h]
  · rfl

/-- C1: for every schema node whose type conversion is an object fragment
(in particular any two-level nested object fragment), `from_schema` on a
handler with split depth `ref = 1` returns exactly the JSON pointer
`{"$ref": "#/definitions/<Name>"}` and stores the full fragment in the
definition registry under `<Name>`, with the nested properties left inline:
depth 1 recurses into the properties at depth 0, which returns each of them
unchanged, so the registered fragment is the converted fragment itself. -/
theorem def_split_depth_one_registers_inline (node : ColanderNode) (name : String)
    (reg : Reg) (hname : name ≠ "") (hkw : kwItems node.converted = none)
    (hty : node.converted.get "type" = some (.str "object")) :
    defFromSchema 1 node (some name) reg =
      .ok (.obj [("$ref", .str (def_json_pointer ++ name))], setKey reg name node.converted) := by
  obtain ⟨l, hl⟩ : ∃ l, node.converted = Json.obj l := by
    cases h : node.converted with
    | obj l => exact ⟨l, rfl⟩
    | str s => rw [h] at hty; simp [Json.get] at hty
    | num n => rw [h] at hty; simp [Json.get] at hty
    | bool b => rw [h] at hty; simp [Json.get] at hty
    | arr a => rw [h] at hty; simp [Json.get] at hty
  rw [hl] at hkw hty ⊢
  simp [Json.get] at hty
  unfold defFromSchema
  rw [get_schema_name]
  simp only [hname, if_false, bind, Except.bind]
  rw [ref_recursive.eq_def]
  simp only [hkw, hl]
  norm_num
  simp only [Json.get, hty]
  rw [schema_object_to_pointer.eq_def]
  norm_num
  simp only [get_schema_name, hname, if_false, bind, Except.bind, Json.get, Json.fields]
  cases hp : getKey l "properties" with
  | none => simp
  | some v =>
    cases v with
    | obj props =>
      simp only [ref_props_zero _ _ _ (props_len_lt l props hp)]
      simp [setKey_self l "properties" (.obj props) hp]
    | str s => simp
    | num n => simp
    | bool b => simp
    | arr a => simp

/-- Witness for C1 on a concrete two-level nested object fragment. -/
theorem def_split_depth_one_registers_inline_witness :
    defFromSchema 1 twoLevelNode (some "Top") [] =
      .ok (.obj [("$ref", .str "#/definitions/Top")],
           [("Top", twoLevelNode.converted)]) := by
  have h := def_split_depth_one_registers_inline twoLevelNode "Top" [] (by decide) rfl rfl
  exact h

theorem strip_titles_err (props : Reg) :
    ∀ (e : Err), strip_titles props = .error e → e = .keyError ∨ e = .attributeError := by
  induction props with
  | nil => intro e h; simp [strip_titles] at h
  | cons p t ih =>
    intro e h
    obtain ⟨k, v⟩ := p
    cases v with
    | obj fields =>
      by_cases h2 : hasKey fields "title"
      · simp [strip_titles, h2] at h
        cases h3 : strip_titles t with
        | error e2 =>
          rw [h3] at h
          simp [bind, Except.bind] at h
          exact ih e (h ▸ h3)
        | ok v2 =>
          rw [h3] at h
          simp [bind, Except.bind] at h
      · simp [strip_titles, h2] at h
        simp [h]
    | str s => simp [strip_titles] at h; simp [h]
    | num n => simp [strip_titles] at h; simp [h]
    | bool b => simp [strip_titles] at h; simp [h]
    | arr a => simp [strip_titles] at h; simp [h]

theorem responseChildren_not_missing (dref : Int) (n : String) (ch : List ColanderNode)
    (resp : Reg) (regs : Registries) :
    responseChildren false dref n ch resp regs ≠ .error .missingDescription := by
  induction ch generalizing resp regs with
  | nil => simp [responseChildren]
  | cons field rest ih =>
    rw [responseChildren]
    by_cases hb : field.name = "body"
    · simp [hb, defFromSchema_none, bind, Except.bind]
    · by_cases hh : field.name = "header" ∨ field.name = "headers"
      · simp only [hb, hh, if_false, if_true]
        cases hp : field.converted.get "properties" with
        | none => simpa [bind, Except.bind] using ih resp regs
        | some hs =>
          by_cases ht : hs.truthy
          · cases hs with
            | obj props =>
              cases hst : strip_titles props with
              | error e =>
                rcases strip_titles_err props e hst with h1 | h1 <;>
                  simp [ht, hst, h1, bind, Except.bind]
              | ok props' => simpa [ht, hst, bind, Except.bind] using ih _ regs
            | str s => simp [ht, bind, Except.bind]
            | num v => simp [ht, bind, Except.bind]
            | bool b => simp [ht, bind, Except.bind]
            | arr a => simp [ht, bind, Except.bind]
          · simpa [ht, bind, Except.bind] using ih resp regs
      · push_neg at hh
        simp only [hb, hh.1, hh.2, if_false]
        simpa [bind, Except.bind] using ih resp regs



theorem responseChildren_regs (dref : Int) (n : String) (ch : List ColanderNode) :
    ∀ (resp : Reg) (regs : Registries) (r : Reg) (regs' : Registries),
    responseChildren false dref n ch resp regs = .ok (r, regs') → regs' = regs := by
  induction ch with
  | nil =>
    intro resp regs r regs' h
    simp [responseChildren] at h
    exact h.2.symm
  | cons field rest ih =>
    intro resp regs r regs' h
    rw [responseChildren] at h
    by_cases hb : field.name = "body"
    · simp [hb, defFromSchema_none, bind, Except.bind] at h
    · by_cases hh : field.name = "header" ∨ field.name = "headers"
      · simp only [hb, hh, if_false, if_true] at h
        cases hp : field.converted.get "properties" with
        | none =>
          rw [hp] at h
          simp [bind, Except.bind] at h
          exact ih _ _ _ _ h
        | some hs =>
          rw [hp] at h
          by_cases ht : hs.truthy
          · cases hs with
            | obj props =>
              cases hst : strip_titles props with
              | error e => simp [ht, hst, bind, Except.bind] at h
              | ok props' =>
                simp [ht, hst, bind, Except.bind] at h
                exact ih _ _ _ _ h
            | str s => simp [ht, bind, Except.bind] at h
            | num v => simp [ht, bind, Except.bind] at h
            | bool b => simp [ht, bind, Except.bind] at h
            | arr a => simp [ht, bind, Except.bind] at h
          · simp [ht, bind, Except.bind] at h
            exact ih _ _ _ _ h
      · push_neg at hh
        simp only [hb, hh.1, hh.2, if_false] at h
        simp [bind, Except.bind] at h
        exact ih _ _ _ _ h

theorem processResponse_regs (dref : Int) (s : ColanderNode) (regs : Registries)
    (r : Json) (regs' : Registries)
    (h : processResponse false dref s regs = .ok (r, regs')) : regs' = regs := by
  rw [processResponse] at h
  by_cases hd : s.description = ""
  · simp [hd] at h
  · simp only [hd, if_false] at h
    cases hc : responseChildren false dref s.className s.children
        [("summary", .str s.description)] regs with
    | error e => rw [hc] at h; simp [bind, Except.bind] at h
    | ok pr =>
      obtain ⟨rc, regsc⟩ := pr
      have := responseChildren_regs dref s.className s.children _ _ _ _ hc
      rw [hc] at h
      cases hex : s.examples with
      | none => simp [hex, bind, Except.bind] at h; exact h.2.symm.trans this
      | some ex =>
        cases ex <;> simp [hex, bind, Except.bind] at h <;> exact h.2.symm.trans this

theorem processResponse_not_missing (dref : Int) (s : ColanderNode) (regs : Registries)
    (hd : s.description ≠ "") :
    processResponse false dref s regs ≠ .error .missingDescription := by
  rw [processResponse]
  simp only [hd, if_false]
  cases hc : responseChildren false dref s.className s.children
      [("summary", .str s.description)] regs with
  | error e =>
    intro h
    simp [bind, Except.bind] at h
    exact responseChildren_not_missing dref s.className s.children _ regs (hc.trans (by rw [h]))
  | ok pr =>
    obtain ⟨rc, regsc⟩ := pr
    cases hex : s.examples with
    | none => simp [bind, Except.bind]
    | some ex => cases ex <;> simp [bind, Except.bind]

theorem from_schema_mapping_missing_first (dref : Int) (regs : Registries) :
    ∀ (pre : List (String × ColanderNode)) (status : String) (bad : ColanderNode)
      (rest : List (String × ColanderNode)),
    bad.description = "" →
    (∀ p ∈ pre, ∃ r, processResponse false dref p.2 regs = .ok (r, regs)) →
    from_schema_mapping false dref (pre ++ (status, bad) :: rest) regs =
      .error .missingDescription := by
  intro pre
  induction pre with
  | nil =>
    intro status bad rest hbad _
    simp only [List.nil_append]
    rw [from_schema_mapping, processResponse]
    simp [hbad, bind, Except.bind]
  | cons p t ih =>
    intro status bad rest hbad hpre
    obtain ⟨r, hr⟩ := hpre p (by simp)
    rw [List.cons_append, from_schema_mapping]
    rw [hr]
    simp only [bind, Except.bind]
    rw [ih status bad rest hbad (fun q hq => hpre q (by simp [hq]))]

theorem from_schema_mapping_not_missing (dref : Int) :
    ∀ (m : List (String × ColanderNode)) (regs : Registries),
    (∀ p ∈ m, p.2.description ≠ "") →
    from_schema_mapping false dref m regs ≠ .error .missingDescription := by
  intro m
  induction m with
  | nil => intro regs _; simp [from_schema_mapping]
  | cons p t ih =>
    intro regs h
    rw [from_schema_mapping]
    cases hp : processResponse false dref p.2 regs with
    | error e =>
      intro hcontra
      simp [bind, Except.bind] at hcontra
      exact processResponse_not_missing dref p.2 regs (h p (by simp)) (hp.trans (by rw [hcontra]))
    | ok pr =>
      obtain ⟨r, regs'⟩ := pr
      cases hrest : from_schema_mapping false dref t regs' with
      | error e2 =>
        intro hcontra
        simp [hrest, bind, Except.bind] at hcontra
        exact ih regs' (fun q hq => h q (by simp [hq])) (hrest.trans (by rw [hcontra]))
      | ok w => simp [hrest, bind, Except.bind]




/-- C2: the claim says every mapping containing a response schema without a
description raises MissingDescriptionError and produces no output, and that
mappings whose schemas all have descriptions never raise it.  The second
half holds unconditionally, but the first fails when an earlier-iterated
entry's processing raises first (a body child hits the NameError of the
missing `six` import, and a header property without a title hits the
unguarded `header.pop("title")` KeyError), so it is amended with the
proviso that every entry before the first description-less one processes
cleanly. -/
theorem response_description_enforcement_amended (dref : Int) (regs : Registries)
    (pre rest : List (String × ColanderNode)) (status : String) (bad : ColanderNode)
    (hbad : bad.description = "")
    (hpre : ∀ p ∈ pre, ∃ r, processResponse false dref p.2 regs = .ok (r, regs)) :
    from_schema_mapping false dref (pre ++ (status, bad) :: rest) regs =
      .error .missingDescription
  ∧ ∀ (m : List (String × ColanderNode)) (regs2 : Registries),
      (∀ p ∈ m, p.2.description ≠ "") →
      from_schema_mapping false dref m regs2 ≠ .error .missingDescription :=
  ⟨from_schema_mapping_missing_first dref regs pre status bad rest hbad hpre,
   fun m regs2 h => from_schema_mapping_not_missing dref m regs2 h⟩

/-- Counterexample to C2 as stated: in `c2cexMapping` the second entry has
no description, yet the call raises KeyError (from the first entry's
untitled header property), not the missing-description error. -/
theorem response_description_enforcement_cex :
    from_schema_mapping false 0 c2cexMapping {} = .error .keyError ∧
    Err.keyError ≠ Err.missingDescription ∧
    respNoDesc.description = "" ∧ ("404", respNoDesc) ∈ c2cexMapping := by
  refine ⟨rfl, by decide, rfl, by simp [c2cexMapping]⟩

/-- Witness for C2's amended statement at concrete mappings. -/
theorem response_description_enforcement_witness :
    from_schema_mapping false 0 [("200", respClean), ("404", respNoDesc)] {} =
      .error .missingDescription ∧
    from_schema_mapping false 0 [("200", respClean)] {} ≠ .error .missingDescription := by
  constructor
  · exact (response_description_enforcement_amended 0 {} [("200", respClean)] []
      "404" respNoDesc rfl (by
        intro p hp
        simp at hp
        subst hp
        exact ⟨.obj [("summary", .str "ok")], rfl⟩)).1
  · exact (response_description_enforcement_amended 0 {} [("200", respClean)] []
      "404" respNoDesc rfl (by
        intro p hp
        simp at hp
        subst hp
        exact ⟨.obj [("summary", .str "ok")], rfl⟩)).2
      [("200", respClean)] {} (by
        intro p hp
        simp at hp
        subst hp
        decide)



theorem strip_titles_key_error (props : Reg)
    (hobj : ∀ p ∈ props, ∃ fl, p.2 = Json.obj fl)
    (hmiss : ∃ p ∈ props, ¬ hasKey p.2.fields "title") :
    strip_titles props = .error .keyError := by
  induction props with
  | nil => simp at hmiss
  | cons p t ih =>
    obtain ⟨k, v⟩ := p
    obtain ⟨fl, hfl⟩ := hobj (k, v) (by simp)
    simp only at hfl
    subst hfl
    by_cases h2 : hasKey fl "title"
    · rw [strip_titles]
      simp only [h2, if_true]
      have : ∃ p ∈ t, ¬ hasKey p.2.fields "title" := by
        rcases hmiss with ⟨q, hq, hqt⟩
        rcases List.mem_cons.mp hq with h3 | h3
        · subst h3
          simp [Json.fields, h2] at hqt
        · exact ⟨q, h3, hqt⟩
      rw [ih (fun q hq => hobj q (by simp [hq])) this]
      simp [bind, Except.bind]
    · rw [strip_titles]
      simp [h2]

theorem strip_titles_all_titled (props : Reg)
    (hobj : ∀ p ∈ props, ∃ fl, p.2 = Json.obj fl)
    (hall : ∀ p ∈ props, hasKey p.2.fields "title") :
    ∃ out, strip_titles props = .ok out := by
  induction props with
  | nil => exact ⟨[], rfl⟩
  | cons p t ih =>
    obtain ⟨k, v⟩ := p
    obtain ⟨fl, hfl⟩ := hobj (k, v) (by simp)
    simp only at hfl
    subst hfl
    have h2 := hall (k, .obj fl) (by simp)
    simp only [Json.fields] at h2
    obtain ⟨out, hout⟩ := ih (fun q hq => hobj q (by simp [hq])) (fun q hq => hall q (by simp [hq]))
    rw [strip_titles]
    simp [h2, hout, bind, Except.bind]


/-- C9: for a response schema (with a description) whose header child's
converted fragment has object-valued properties, `from_schema_mapping`
fails with the KeyError of the unguarded `header.pop("title")` whenever at
least one property has no `title` key, and the title-stripping step is
total exactly when every property carries a title (in which case the call
succeeds and the header is kept with the titles removed). -/
theorem response_header_title_strip (status : String) (s hdr : ColanderNode)
    (props : Reg) (regs : Registries) (dref : Int)
    (hd : s.description ≠ "")
    (hch : s.children = [hdr])
    (hn : hdr.name = "header" ∨ hdr.name = "headers")
    (hp : hdr.converted.get "properties" = some (.obj props))
    (hne : props ≠ [])
    (hobj : ∀ p ∈ props, ∃ fl, p.2 = Json.obj fl) :
    ((∃ p ∈ props, ¬ hasKey p.2.fields "title") →
      from_schema_mapping false dref [(status, s)] regs = .error .keyError)
  ∧ ((∀ p ∈ props, hasKey p.2.fields "title") →
      ∃ out, from_schema_mapping false dref [(status, s)] regs = .ok out) := by
  have hb : ¬ hdr.name = "body" := by rcases hn with h | h <;> simp [h]
  have htr : Json.truthy (.obj props) = true := by
    simp [Json.truthy, hne]
  constructor
  · intro hmiss
    rw [from_schema_mapping, processResponse]
    simp only [hd, if_false, hch]
    simp only [responseChildren, hb, hn, if_false, if_true, hp, htr]
    rw [strip_titles_key_error props hobj hmiss]
    simp [bind, Except.bind]
  · intro hall
    obtain ⟨out, hout⟩ := strip_titles_all_titled props hobj hall
    rw [from_schema_mapping, processResponse]
    simp only [hd, if_false, hch]
    simp only [responseChildren, hb, hn, if_false, if_true, hp, htr]
    rw [hout]
    simp only [bind, Except.bind, from_schema_mapping]
    cases hex : s.examples with
    | none =>
      simp only [hex]
      exact ⟨_, rfl⟩
    | some ex =>
      cases ex <;> simp only [hex] <;> exact ⟨_, rfl⟩



/-- Witness for C9 at concrete single-entry mappings, one with an untitled
header property and one with all properties titled. -/
theorem response_header_title_strip_witness :
    from_schema_mapping false 0 [("200", respHdrNoTitle)] {} = .error .keyError ∧
    ∃ out, from_schema_mapping false 0 [("200", respHdrTitled)] {} = .ok out := by
  constructor
  · exact (response_header_title_strip "200" respHdrNoTitle hdrNoTitle
      [("X", .obj [("type", .str "string")])] {} 0 (by decide) rfl (Or.inl rfl) rfl
      (by simp)
      (by intro p hp; simp at hp; subst hp; exact ⟨_, rfl⟩)).1
      ⟨("X", .obj [("type", .str "string")]), by simp, by decide⟩
  · exact (response_header_title_strip "200" respHdrTitled hdrTitled
      [("X", .obj [("title", .str "X"), ("type", .str "string")])] {} 0 (by decide) rfl
      (Or.inl rfl) rfl (by simp)
      (by intro p hp; simp at hp; subst hp; exact ⟨_, rfl⟩)).2
      (by intro p hp; simp at hp; subst hp; decide)



theorem responseChildren_get (dref : Int) (n : String) (ch : List ColanderNode) :
    ∀ (resp : Reg) (regs : Registries) (r : Reg) (regs' : Registries) (k : String),
    k ≠ "schema" → k ≠ "headers" →
    responseChildren false dref n ch resp regs = .ok (r, regs') →
    getKey r k = getKey resp k := by
  induction ch with
  | nil =>
    intro resp regs r regs' k _ _ h
    simp [responseChildren] at h
    rw [h.1]
  | cons field rest ih =>
    intro resp regs r regs' k hk1 hk2 h
    rw [responseChildren] at h
    by_cases hb : field.name = "body"
    · simp [hb, defFromSchema_none, bind, Except.bind] at h
    · by_cases hh : field.name = "header" ∨ field.name = "headers"
      · simp only [hb, hh, if_false, if_true] at h
        cases hp : field.converted.get "properties" with
        | none =>
          rw [hp] at h
          simp [bind, Except.bind] at h
          exact ih _ _ _ _ _ hk1 hk2 h
        | some hs =>
          rw [hp] at h
          by_cases ht : hs.truthy
          · cases hs with
            | obj props =>
              cases hst : strip_titles props with
              | error e => simp [ht, hst, bind, Except.bind] at h
              | ok props' =>
                simp [ht, hst, bind, Except.bind] at h
                rw [ih _ _ _ _ _ hk1 hk2 h]
                exact getKey_setKey_ne _ _ _ _ (fun hcontra => hk2 hcontra.symm)
            | str s => simp [ht, bind, Except.bind] at h
            | num v => simp [ht, bind, Except.bind] at h
            | bool b => simp [ht, bind, Except.bind] at h
            | arr a => simp [ht, bind, Except.bind] at h
          · simp [ht, bind, Except.bind] at h
            exact ih _ _ _ _ _ hk1 hk2 h
      · push_neg at hh
        simp only [hb, hh.1, hh.2, if_false] at h
        simp [bind, Except.bind] at h
        exact ih _ _ _ _ _ hk1 hk2 h

theorem processResponse_summary (dref : Int) (s : ColanderNode) (regs : Registries)
    (r : Json) (regs' : Registries)
    (h : processResponse false dref s regs = .ok (r, regs')) :
    r.get "summary" = some (.str s.description) ∧ r.get "description" = none := by
  rw [processResponse] at h
  by_cases hd : s.description = ""
  · simp [hd] at h
  · simp only [hd, if_false] at h
    cases hc : responseChildren false dref s.className s.children
        [("summary", .str s.description)] regs with
    | error e => rw [hc] at h; simp [bind, Except.bind] at h
    | ok pr =>
      obtain ⟨rc, regsc⟩ := pr
      have hsum := responseChildren_get dref s.className s.children _ _ _ _ "summary"
        (by decide) (by decide) hc
      have hdesc := responseChildren_get dref s.className s.children _ _ _ _ "description"
        (by decide) (by decide) hc
      simp [getKey] at hsum hdesc
      rw [hc] at h
      cases hex : s.examples with
      | none =>
        simp [hex, bind, Except.bind] at h
        rw [← h.1]
        simp [Json.get, hsum, hdesc]
      | some ex =>
        cases ex with
        | obj e =>
          simp [hex, bind, Except.bind] at h
          rw [← h.1]
          simp only [Json.get]
          rw [getKey_setKey_ne _ _ _ _ (by decide : ("examples" : String) ≠ "summary"),
              getKey_setKey_ne _ _ _ _ (by decide : ("examples" : String) ≠ "description")]
          exact ⟨hsum, hdesc⟩
        | str a =>
          simp [hex, bind, Except.bind] at h
          rw [← h.1]
          simp [Json.get, hsum, hdesc]
        | num a =>
          simp [hex, bind, Except.bind] at h
          rw [← h.1]
          simp [Json.get, hsum, hdesc]
        | bool a =>
          simp [hex, bind, Except.bind] at h
          rw [← h.1]
          simp [Json.get, hsum, hdesc]
        | arr a =>
          simp [hex, bind, Except.bind] at h
          rw [← h.1]
          simp [Json.get, hsum, hdesc]

theorem from_schema_mapping_entries (dref : Int) :
    ∀ (m : List (String × ColanderNode)) (regs : Registries) (rs : Reg)
      (regs' : Registries),
    from_schema_mapping false dref m regs = .ok (rs, regs') →
    ∀ p ∈ rs, p.2.get "description" = none ∧
      ∃ s, (p.1, s) ∈ m ∧ p.2.get "summary" = some (.str s.description) := by
  intro m
  induction m with
  | nil =>
    intro regs rs regs' h p hp
    simp [from_schema_mapping] at h
    rw [h.1] at hp
    simp at hp
  | cons q t ih =>
    intro regs rs regs' h p hp
    obtain ⟨st, s⟩ := q
    rw [from_schema_mapping] at h
    cases hq : processResponse false dref s regs with
    | error e => rw [hq] at h; simp [bind, Except.bind] at h
    | ok pr =>
      obtain ⟨r, regs1⟩ := pr
      rw [hq] at h
      simp only [bind, Except.bind] at h
      cases hrest : from_schema_mapping false dref t regs1 with
      | error e2 => rw [hrest] at h; simp [bind, Except.bind] at h
      | ok w =>
        obtain ⟨rs1, regs2⟩ := w
        rw [hrest] at h
        simp at h
        rw [← h.1] at hp
        rcases List.mem_cons.mp hp with h1 | h1
        · subst h1
          have := processResponse_summary dref s regs r regs1 hq
          exact ⟨this.2, s, by simp, this.1⟩
        · obtain ⟨hdescr, s2, hs2, hsum⟩ := ih regs1 rs1 regs2 hrest p h1
          exact ⟨hdescr, s2, by simp [hs2], hsum⟩




/-- C8: a response produced by `from_schema_mapping` (inline mode) stores
the schema's description under the key `summary` (line 358) and carries no
`description` key, while the default undocumented response synthesized by
`_extract_operation_from_view` (lines 907-909) uses the key `description` —
the two expose the mandatory OpenAPI description under different keys. -/
theorem response_summary_vs_description :
    (∀ (dref : Int) (m : List (String × ColanderNode)) (regs : Registries)
       (rs : Reg) (regs' : Registries),
      from_schema_mapping false dref m regs = .ok (rs, regs') →
      ∀ p ∈ rs, p.2.get "description" = none ∧
        ∃ s, (p.1, s) ∈ m ∧ p.2.get "summary" = some (.str s.description))
  ∧ ∃ op regs',
      extract_operation (SwaggerState.init []) argsDeprecated {} = .ok (op, regs') ∧
      (op.get "responses").bind (fun r => r.get "default") =
        some (.obj [("description", .str "UNDOCUMENTED RESPONSE")]) :=
  ⟨fun dref m regs rs regs' h => from_schema_mapping_entries dref m regs rs regs' h,
   ⟨_, _, rfl, rfl⟩⟩

/-- Witness for C8's first conjunct at a concrete one-entry mapping. -/
theorem response_summary_vs_description_witness :
    (Json.obj [("summary", Json.str "ok")]).get "description" = none ∧
    ∃ s, (("200" : String), s) ∈ [("200", respClean)] ∧
      (Json.obj [("summary", Json.str "ok")]).get "summary" =
        some (.str s.description) :=
  response_summary_vs_description.1 0 [("200", respClean)] {}
    [("200", Json.obj [("summary", Json.str "ok")])] {} rfl
    ("200", Json.obj [("summary", Json.str "ok")]) (by simp)



theorem extract_info_bridge (rs : Reg) :
    (rs.flatMap fun p =>
      match (p.2).get "content" with
      | some (.obj cs) => cs.map (fun c => Variation.mk "response" c.1 p.1)
      | _ => ([] : List Variation)) =
    ((rs.flatMap fun p =>
      match (p.2).get "content" with
      | some (.obj cs) => cs.map (fun c => (p.1, c.1))
      | _ => ([] : List (String × String))).map
        (fun pr => Variation.mk "response" pr.2 pr.1)) := by
  induction rs with
  | nil => simp
  | cons p t ih =>
    simp only [List.flatMap_cons, List.map_append, ih]
    congr 1
    cases hc : (p.2).get "content" with
    | none => simp
    | some c =>
      cases c <;> simp [List.map_map, Function.comp]

theorem extract_info_eq_respPairs (op : Json) :
    extract_info op = (respPairs op).map (fun pr => ⟨"response", pr.2, pr.1⟩) := by
  unfold extract_info respPairs
  cases h : op.get "responses" with
  | none => simp
  | some r =>
    cases r with
    | obj rs => exact extract_info_bridge rs
    | str s => simp
    | num n => simp
    | bool b => simp
    | arr a => simp

theorem variation_pairing_injective :
    Function.Injective (fun pr : String × String => Variation.mk "response" pr.2 pr.1) := by
  intro a b h
  simp [Variation.mk.injEq] at h
  exact Prod.ext h.2 h.1

theorem validate_diff_oas3_iff (op prev : Json) (path : String) :
    validate_diff_oas3 op prev path = .error (.conflictingContentType path) ↔
    ∃ pr, pr ∈ respPairs op ∧ pr ∈ respPairs prev := by
  unfold validate_diff_oas3
  by_cases hc : (extract_info op).any
      (fun vo => (extract_info prev).any (fun vp => decide (vo = vp))) = true
  · simp only [hc, if_true, true_iff]
    obtain ⟨vo, hvo, h2⟩ := List.any_eq_true.mp hc
    obtain ⟨vp, hvp, heq⟩ := List.any_eq_true.mp h2
    have heq2 : vo = vp := of_decide_eq_true heq
    subst heq2
    rw [extract_info_eq_respPairs] at hvo hvp
    obtain ⟨pr, hpr, hpr2⟩ := List.mem_map.mp hvo
    obtain ⟨pr2, hpr3, hpr4⟩ := List.mem_map.mp hvp
    have : pr = pr2 := variation_pairing_injective (hpr2.trans hpr4.symm)
    exact ⟨pr, hpr, this ▸ hpr3⟩
  · simp only [hc, if_false]
    constructor
    · intro h
      cases h
    · intro ⟨pr, hpr, hpr2⟩
      exfalso
      apply hc
      rw [List.any_eq_true]
      refine ⟨⟨"response", pr.2, pr.1⟩, ?_, ?_⟩
      · rw [extract_info_eq_respPairs]
        exact List.mem_map.mpr ⟨pr, hpr, rfl⟩
      · rw [List.any_eq_true]
        refine ⟨⟨"response", pr.2, pr.1⟩, ?_, by simp⟩
        rw [extract_info_eq_respPairs]
        exact List.mem_map.mpr ⟨pr, hpr2, rfl⟩



theorem process_definition_merges (st : SwaggerState) (path : String)
    (path_obj : Reg) (rtags : List String) (regs : Registries)
    (method : String) (args : ViewArgs)
    (op0 op : Json) (regs1 : Registries) (preg2 : Reg)
    (prev : Json) (otags : List String)
    (hm : (st.ignore_methods.map strToLower).contains (strToLower method) = false)
    (hext : extract_operation st args regs = .ok (op0, regs1))
    (hic : st.ignore_ctypes = [])
    (hspec : st.openapi_spec = 3)
    (hconv : convert_to_oas3 st.default_content_type op0 regs1.parameter_registry =
      .ok (op, preg2))
    (hprev : getKey path_obj (strToLower method) = some prev)
    (htr : prev.truthy = true)
    (hval : validate_diff_oas3 op prev path = .ok ())
    (hdt : st.default_tags = none)
    (hds : st.default_security = none)
    (hot : getTagList op = .ok otags)
    (hsec : op.get "security" = none) :
    process_definition st path [] (path_obj, rtags, regs) (method, args) =
      .ok (setKey path_obj (strToLower method) (merge_dicts prev op),
           get_tags rtags otags,
           { regs1 with parameter_registry := preg2 }) := by
  rw [process_definition]
  simp only [hm, Bool.false_eq_true, if_false, hext, bind, Except.bind, hic, List.any_nil,
    hprev, htr, hspec, hconv, hval, hdt, hds, hot, hsec]
  norm_num
  cases hog : op.get "tags" with
  | none =>
    simp only [hog, hot, hsec, List.isEmpty_nil, if_true, bind, Except.bind]
    rw [hval]
  | some tg =>
    simp only [hog, hot, hsec, List.isEmpty_nil, if_true, bind, Except.bind]
    rw [hval]




/-- C4: `_validate_diff_oas3` raises the conflicting-content-type error
naming the path exactly when some (response status, content type) pair
appears in the responses of both the new and the previously assembled
operation; and when validation passes, the `_build_paths` step for the
second view stores `merge_dicts(previous, op)` under the method key, so the
later view's fields augment the earlier operation. -/
theorem oas3_conflict_iff_and_merge :
    (∀ (op prev : Json) (path : String),
      validate_diff_oas3 op prev path = .error (.conflictingContentType path) ↔
      ∃ pr, pr ∈ respPairs op ∧ pr ∈ respPairs prev)
  ∧ (∀ (st : SwaggerState) (path : String) (path_obj : Reg) (rtags : List String)
       (regs : Registries) (method : String) (args : ViewArgs) (op0 op : Json)
       (regs1 : Registries) (preg2 : Reg) (prev : Json) (otags : List String),
      (st.ignore_methods.map strToLower).contains (strToLower method) = false →
      extract_operation st args regs = .ok (op0, regs1) →
      st.ignore_ctypes = [] →
      st.openapi_spec = 3 →
      convert_to_oas3 st.default_content_type op0 regs1.parameter_registry =
        .ok (op, preg2) →
      getKey path_obj (strToLower method) = some prev →
      prev.truthy = true →
      validate_diff_oas3 op prev path = .ok () →
      st.default_tags = none →
      st.default_security = none →
      getTagList op = .ok otags →
      op.get "security" = none →
      process_definition st path [] (path_obj, rtags, regs) (method, args) =
        .ok (setKey path_obj (strToLower method) (merge_dicts prev op),
             get_tags rtags otags, { regs1 with parameter_registry := preg2 })) :=
  ⟨validate_diff_oas3_iff, process_definition_merges⟩

/-- Witness for C4's merge conjunct: a second GET view declaring status 200
under `text/xml` merges into an existing operation declaring 200 under
`application/json`. -/
theorem oas3_conflict_iff_and_merge_witness :
    process_definition c4St "/m" [] ([("get", c4Prev)], [], {})
      ("GET", argsAccept "text/xml") =
      .ok (setKey [("get", c4Prev)] "get" (merge_dicts c4Prev c4Op),
           get_tags [] [], { c4Regs1 with parameter_registry := [] }) :=
  oas3_conflict_iff_and_merge.2 c4St "/m" [("get", c4Prev)] [] {} "GET"
    (argsAccept "text/xml") c4Op0 c4Op c4Regs1 [] c4Prev []
    rfl rfl rfl rfl rfl rfl rfl rfl rfl rfl rfl rfl



theorem mirrorShared_get (doc : Reg) (ks : List String) :
    ∀ (base : Reg) (k : String), ¬ k ∈ ks →
    getKey (mirrorShared base doc ks) k = getKey base k := by
  induction ks with
  | nil => intro base k _; rfl
  | cons k0 t ih =>
    intro base k h
    rw [mirrorShared]
    have hk : k0 ≠ k := fun hc => h (by simp [hc])
    by_cases h2 : hasKey base k0
    · cases hd : getKey doc k0 with
      | none =>
        simp only [h2, if_true, hd]
        exact ih base k (fun hc => h (by simp [hc]))
      | some v =>
        simp only [h2, if_true, hd]
        rw [ih (setKey base k0 v) k (fun hc => h (by simp [hc]))]
        exact getKey_setKey_ne base k0 k v hk
    · simp only [h2, if_false]
      exact ih base k (fun hc => h (by simp [hc]))


set_option maxHeartbeats 1000000 in
/-- Counterexample to C6 as stated: after a first `generate` call on a
fresh instance the registries still hold the `MyBody` entries (so the next
call does not begin with empty registries), and a second call on the same
instance with `services` emptied still emits those definitions in its
output document, while a fresh instance with no services emits none. -/
theorem registries_reset_per_generate_cex :
    generate c6St none none none none none 2 = .ok (c6Doc1, c6St1) ∧
    c6St1.regs.definition_registry = [("MyBody", c6Frag)] ∧
    ((generate { c6St1 with services := [] } none none none none none 2).map
      (fun q => q.1.get "definitions")) = .ok (some (.obj [("MyBody", c6Frag)])) ∧
    ((generate (SwaggerState.init [] 1 true false) none none none none none 2).map
      (fun q => q.1.get "definitions")) = .ok none :=
  ⟨rfl, rfl, rfl, rfl⟩

set_option maxHeartbeats 1000000 in
/-- C6 (amended): the registries are created empty once per CorniceSwagger
instance, in `__init__`; `generate` does not reset them, so a first call's
entries persist in the instance and are carried into later calls on the
same instance. -/
theorem registries_per_instance_amended :
    (∀ (services : List ServiceDef) (d : Int) (p r : Bool),
      (SwaggerState.init services d p r).regs = ⟨[], [], []⟩)
  ∧ ((generate c6St none none none none none 2).map (fun p => p.2.regs)) =
      .ok ⟨[("MyBody", c6Frag)], [("MyBody", c6Param)], []⟩
  ∧ ((generate { c6St1 with services := [] } none none none none none 2).map
      (fun q => q.2.regs.definition_registry)) = .ok [("MyBody", c6Frag)] :=
  ⟨fun _ _ _ _ => rfl, rfl, rfl⟩




/-- C10: `generate` only shallow-copies the base swagger document
(line 609) and then calls `info.update(title=..., version=...)` on the
nested info mapping taken from it (lines 605, 610), mutating the base
document in place: after `generate(title=t, version=v)` the base document's
info mapping contains `t` and `v` rather than being left unchanged. -/
theorem generate_mutates_base_info (st : SwaggerState) (sw i : Reg) (t v : String)
    (hsvc : st.services = [])
    (hregs : st.regs = ⟨[], [], []⟩)
    (hsw : st.swagger = .obj sw)
    (hinfo : getKey sw "info" = some (.obj i))
    (ht : t ≠ "") (hv : v ≠ "") :
    ∃ doc st', generate st (some t) (some v) none none none 2 = .ok (doc, st') ∧
      st'.swagger.get "info" =
        some (.obj (setKey (setKey i "title" (.str t)) "version" (.str v))) ∧
      (st'.swagger.get "info").bind (fun j => j.get "title") = some (.str t) ∧
      (st'.swagger.get "info").bind (fun j => j.get "version") = some (.str v) := by
  have hhk : hasKey sw "info" = true := by simp [hasKey, hinfo]
  rw [generate]
  norm_num
  simp only [ht, hv, if_false, hsw, Json.get, hinfo, Option.getD, Json.fields,
    Bool.not_false, hhk, Bool.and_self, if_true, bind, Except.bind]
  simp only [hsvc, hregs, build_paths, List.foldlM, List.isEmpty_nil, if_true]
  refine ⟨_, _, rfl, ?_, ?_, ?_⟩
  · simp only [Json.get]
    rw [mirrorShared_get _ _ _ _ (by simp)]
    exact getKey_setKey_self sw "info" _
  · simp only [Json.get]
    rw [mirrorShared_get _ _ _ _ (by simp)]
    rw [getKey_setKey_self sw "info" _]
    simp only [Option.bind, Json.get]
    rw [getKey_setKey_ne _ _ _ _ (by decide : ("version" : String) ≠ "title")]
    exact getKey_setKey_self i "title" _
  · simp only [Json.get]
    rw [mirrorShared_get _ _ _ _ (by simp)]
    rw [getKey_setKey_self sw "info" _]
    simp only [Option.bind, Json.get]
    exact getKey_setKey_self _ "version" _



/-- Witness for C10 on a freshly constructed instance with the default
base document. -/
theorem generate_mutates_base_info_witness :
    ∃ doc st', generate (SwaggerState.init []) (some "T") (some "V") none none none 2 =
        .ok (doc, st') ∧
      st'.swagger.get "info" =
        some (.obj (setKey (setKey [] "title" (.str "T")) "version" (.str "V"))) ∧
      (st'.swagger.get "info").bind (fun j => j.get "title") = some (.str "T") ∧
      (st'.swagger.get "info").bind (fun j => j.get "version") = some (.str "V") :=
  generate_mutates_base_info (SwaggerState.init []) [("info", .obj [])] [] "T" "V"
    rfl rfl rfl rfl (by decide) (by decide)


end CorniceSwagger
